import Mathlib

/-!
Shallow embedding of the generic power-domain (genpd) engine from
drivers/base/power/domain.c.

Modelling conventions:
* Domains and devices are identified by natural numbers.  `State.doms` and
  `State.devs` map an identifier to the per-object record; `State.links` is
  the global list of master→slave links (each C `struct gpd_link` lives on
  both the master's `master_links` and the slave's `slave_links`, which we
  recover by filtering the global list, preserving insertion order).
* `sd_count` is an `Int` so that the non-negativity guarded by
  `genpd_sd_counter_dec` is a real property and not a typing artefact.
* Ops-table callbacks (`power_on`, `power_off`, `save_state`, `stop`, …),
  governor hooks and PM-QoS queries are external collaborators invoked
  through a typed table; their return values are supplied by an `Env`
  record, and every dispatch is recorded in `State.trace`.
* Elapsed-time measurements (`ktime_get` differences) are supplied by the
  `Env` (`elapsed_on`, `elapsed_off`, `suspend_elapsed`, `resume_elapsed`).
* `__genpd_poweron` recurses through the masters of a domain.  The C code
  has no termination guarantee on cyclic link graphs (it would deadlock on
  the per-domain mutex); we model the recursion with explicit fuel and model
  a re-entrant mutex acquisition as an error return that leaves the state
  unchanged (both cut executions that never complete in C and both trigger
  the caller's rollback).  Only `genpd_poweron`'s mutex is modelled, because
  it is the only lock acquisition reachable from inside another critical
  section in a sequential interleaving of the entry points.
* External pm_runtime_* / pm_generic_* calls (the runtime-PM core and the
  downstream driver callbacks) are modelled as trace events with
  `Env`-supplied results; they do not mutate genpd state themselves.
-/

/-- Error numbers used by the code (returned negated, as in C). -/
def EINVAL : Int := 22

/-- Error number for resource temporarily unavailable. -/
def EAGAIN : Int := 11

/-- Error number for device or resource busy. -/
def EBUSY : Int := 16

/-- Error number modelling a re-entrant mutex acquisition (self-deadlock). -/
def EDEADLK : Int := 35

/-- Error number modelling exhaustion of the recursion fuel. -/
def ELOOP : Int := 40

/-- Power state of a domain: GPD_STATE_ACTIVE / GPD_STATE_POWER_OFF. -/
inductive GpdStatus where
  | active
  | power_off
deriving DecidableEq, Repr

/-- Per-domain state: the fields of `struct generic_pm_domain` that the
    modelled operations read or write. -/
structure DomState where
  status : GpdStatus
  sd_count : Int
  prepared_count : Nat
  suspended_count : Nat
  suspend_power_off : Bool
  device_count : Nat
  dev_list : List Nat
  power_on_latency_ns : Int
  power_off_latency_ns : Int
  max_off_time_changed : Bool
  locked : Bool
deriving DecidableEq, Repr

/-- Per-device state: the device fields and the fields of its
    `generic_pm_domain_data` binding that the modelled operations touch. -/
structure DevState where
  pm_domain : Option Nat
  domain_data_set : Bool
  qos_nb_registered : Bool
  runtime_suspended : Bool
  suspend_latency_ns : Int
  resume_latency_ns : Int
  constraint_changed : Bool
deriving DecidableEq, Repr

/-- Directed master→slave edge (`struct gpd_link`). -/
structure Link where
  master : Nat
  slave : Nat
deriving DecidableEq, Repr

/-- Trace events recording dispatches to external collaborators. -/
inductive Event where
  | powerOnCb (d : Nat)
  | powerOffCb (d : Nat)
  | saveState (dv : Nat)
  | stopDev (dv : Nat)
  | restoreState (dv : Nat)
  | startDev (dv : Nat)
  | qosAddNotifier (dv : Nat)
  | qosRemoveNotifier (dv : Nat)
  | genericPrepare (dv : Nat)
  | rtResume (dv : Nat)
  | attachDevCb (d dv : Nat)
  | detachDevCb (d dv : Nat)
deriving DecidableEq, Repr

/-- Global state of the engine. -/
structure State where
  doms : Nat → DomState
  devs : Nat → DevState
  links : List Link
  workQueue : List Nat
  trace : List Event

/-- Environment: callback tables, governor, PM-QoS answers and measured
    elapsed times supplied by the outside world. -/
structure Env where
  power_on_cb : Nat → Option Int
  power_off_cb : Nat → Option Int
  elapsed_on : Nat → Int
  elapsed_off : Nat → Int
  save_state_ret : Nat → Nat → Int
  stop_ret : Nat → Nat → Int
  restore_ret : Nat → Nat → Int
  start_ret : Nat → Nat → Int
  attach_ret : Nat → Nat → Int
  has_stop_ok : Nat → Bool
  stop_ok : Nat → Nat → Bool
  has_power_down_ok : Nat → Bool
  power_down_ok : Nat → Bool
  runtime_pm_enabled : Nat → Bool
  irq_safe : Nat → Bool
  qos_flags_set : Nat → Bool
  wakeup_pending : Bool
  can_wakeup : Nat → Bool
  may_wakeup : Nat → Bool
  active_wakeup : Nat → Nat → Bool
  generic_prepare_ret : Nat → Int
  suspend_elapsed : Nat → Int
  resume_elapsed : Nat → Int

/-- Update one domain's record. -/
def updDom (s : State) (d : Nat) (f : DomState → DomState) : State :=
  { s with doms := fun x => if x = d then f (s.doms x) else s.doms x }

/-- Update one device's record. -/
def updDev (s : State) (dv : Nat) (f : DevState → DevState) : State :=
  { s with devs := fun x => if x = dv then f (s.devs x) else s.devs x }

/-- Append a trace event. -/
def addEvent (s : State) (e : Event) : State :=
  { s with trace := s.trace ++ [e] }

/-- Acquire a domain's mutex (model flag). -/
def lockDom (s : State) (d : Nat) : State :=
  updDom s d fun t => { t with locked := true }

/-- Release a domain's mutex (model flag). -/
def unlockDom (s : State) (d : Nat) : State :=
  updDom s d fun t => { t with locked := false }

/-- genpd_sd_counter_inc: atomically increment the subdomain counter. -/
def genpd_sd_counter_inc (s : State) (d : Nat) : State :=
  updDom s d fun t => { t with sd_count := t.sd_count + 1 }

/-- genpd_sd_counter_dec: the decrement is skipped (with only a diagnostic
    WARN_ON) when the counter already reads zero. -/
def genpd_sd_counter_dec (s : State) (d : Nat) : State :=
  updDom s d fun t => if t.sd_count = 0 then t else { t with sd_count := t.sd_count - 1 }

/-- genpd_queue_power_off_work: queue_work does nothing when the work item
    is already pending. -/
def genpd_queue_power_off_work (s : State) (d : Nat) : State :=
  if d ∈ s.workQueue then s else { s with workQueue := s.workQueue ++ [d] }

/-- genpd_power_on (lines 103-130): invoke the provider power_on callback,
    measuring the elapsed time and raising `power_on_latency_ns` when it is
    exceeded.  Returns immediately on a callback error, before any
    measurement is consumed. -/
def genpd_power_on (env : Env) (s : State) (d : Nat) (timed : Bool) : Int × State :=
  match env.power_on_cb d with
  | none => (0, s)
  | some ret =>
    let s1 := addEvent s (.powerOnCb d)
    if timed = false then (ret, s1)
    else if ret ≠ 0 then (ret, s1)
    else if env.elapsed_on d ≤ (s1.doms d).power_on_latency_ns then (0, s1)
    else (0, updDom s1 d fun t =>
      { t with power_on_latency_ns := env.elapsed_on d, max_off_time_changed := true })

/-- genpd_power_off (lines 132-159): invoke the provider power_off callback.
    A -EBUSY return short-circuits before the elapsed time is consumed; any
    other return value (including non-zero errors) flows through the latency
    update before being returned. -/
def genpd_power_off (env : Env) (s : State) (d : Nat) (timed : Bool) : Int × State :=
  match env.power_off_cb d with
  | none => (0, s)
  | some ret =>
    let s1 := addEvent s (.powerOffCb d)
    if timed = false then (ret, s1)
    else if ret = -EBUSY then (ret, s1)
    else if env.elapsed_off d ≤ (s1.doms d).power_off_latency_ns then (ret, s1)
    else (ret, updDom s1 d fun t =>
      { t with power_off_latency_ns := env.elapsed_off d, max_off_time_changed := true })

/-- Links whose slave is `d` (the domain's `slave_links`, i.e. its masters). -/
def slaveLinks (s : State) (d : Nat) : List Link :=
  s.links.filter fun l => decide (l.slave = d)

/-- Links whose master is `d` (the domain's `master_links`, i.e. its slaves). -/
def masterLinks (s : State) (d : Nat) : List Link :=
  s.links.filter fun l => decide (l.master = d)

/-- Master-increment loop of __genpd_poweron (lines 196-204): for each link,
    bump the master's subdomain counter and recursively power the master on;
    on failure, drop the bump for the failing master and, while unwinding,
    drop the bump and queue deferred power-off for each previously processed
    master (the `err:` rollback, lines 213-219). -/
def poweronMasters (pon : State → Nat → Int × State) : State → List Link → Int × State
  | s, [] => (0, s)
  | s, l :: rest =>
    let s1 := genpd_sd_counter_inc s l.master
    let p := pon s1 l.master
    if p.1 ≠ 0 then (p.1, genpd_sd_counter_dec p.2 l.master)
    else
      let q := poweronMasters pon p.2 rest
      if q.1 ≠ 0 then
        (q.1, genpd_queue_power_off_work (genpd_sd_counter_dec q.2 l.master) l.master)
      else (0, q.2)

/-- Decrement-and-queue walk over a list of links, applied to each link's
    master.  Used both by the full rollback of __genpd_poweron when the
    domain's own power_on callback fails (reverse order) and by the
    master-notification loop of genpd_poweroff (lines 357-360). -/
def decAndQueueMasters : State → List Link → State
  | s, [] => s
  | s, l :: rest =>
    decAndQueueMasters (genpd_queue_power_off_work (genpd_sd_counter_dec s l.master) l.master) rest

/-- Body of __genpd_poweron (lines 182-222), parameterised by the recursive
    power-on used for the masters.  The caller holds the domain's mutex.
    The early return fires when the domain is already active, or when a
    system-sleep cycle has latched it as staying off. -/
def genpd_poweron_locked_aux (env : Env) (pon : State → Nat → Int × State)
    (s : State) (d : Nat) : Int × State :=
  if (s.doms d).status = GpdStatus.active
      ∨ (0 < (s.doms d).prepared_count ∧ (s.doms d).suspend_power_off = true) then (0, s)
  else
    let p := poweronMasters pon s (slaveLinks s d)
    if p.1 ≠ 0 then (p.1, p.2)
    else
      let q := genpd_power_on env p.2 d true
      if q.1 ≠ 0 then (q.1, decAndQueueMasters q.2 (slaveLinks s d).reverse)
      else (0, updDom q.2 d fun t => { t with status := GpdStatus.active })

/-- genpd_poweron (lines 228-236): take the domain mutex, run
    __genpd_poweron, release the mutex.  A re-entrant acquisition (the
    domain is already locked further up the call stack) would deadlock in C;
    it is modelled as an error return with the state unchanged.  Exhausted
    fuel likewise models a recursion that never completes. -/
def genpd_poweron (env : Env) : Nat → State → Nat → Int × State
  | 0, s, _ => (-ELOOP, s)
  | fuel + 1, s, d =>
    if (s.doms d).locked = true then (-EDEADLK, s)
    else
      let p := genpd_poweron_locked_aux env (genpd_poweron env fuel) (lockDom s d) d
      (p.1, unlockDom p.2 d)

/-- __genpd_poweron with the mutex already held, recursing with the given
    fuel for the masters. -/
def genpd_poweron_locked (env : Env) (fuel : Nat) (s : State) (d : Nat) : Int × State :=
  genpd_poweron_locked_aux env (genpd_poweron env fuel) s d

/-- Device walk of genpd_poweroff (lines 315-326): `none` means some device
    carries a PM-QoS NO_POWER_OFF / REMOTE_WAKEUP flag (-EBUSY); otherwise
    the count of devices that are not runtime-suspended or are IRQ-safe. -/
def poweroffDevScan (env : Env) (s : State) : List Nat → Option Nat
  | [] => some 0
  | dv :: rest =>
    if env.qos_flags_set dv = true then none
    else
      match poweroffDevScan env s rest with
      | none => none
      | some n =>
        some (n + if (s.devs dv).runtime_suspended = false ∨ env.irq_safe dv = true then 1 else 0)

/-- genpd_poweroff (lines 297-363).  The caller holds the domain's mutex.
    Refuses with 0 when already off or a system sleep is in progress; with
    -EBUSY on active subdomains, QoS flags, or un-suspended devices per the
    policy; with -EAGAIN on a governor veto.  On success flips the status to
    GPD_STATE_POWER_OFF and notifies every master (decrement + deferred-off
    work). -/
def genpd_poweroff (env : Env) (s : State) (d : Nat) (is_async : Bool) : Int × State :=
  if (s.doms d).status = GpdStatus.power_off ∨ 0 < (s.doms d).prepared_count then (0, s)
  else if 0 < (s.doms d).sd_count then (-EBUSY, s)
  else
    match poweroffDevScan env s (s.doms d).dev_list with
    | none => (-EBUSY, s)
    | some not_suspended =>
      if 1 < not_suspended ∨ (not_suspended = 1 ∧ is_async = true) then (-EBUSY, s)
      else if env.has_power_down_ok d = true ∧ env.power_down_ok d = false then (-EAGAIN, s)
      else
        let step :=
          match env.power_off_cb d with
          | some _ =>
            if 0 < (s.doms d).sd_count then (-EBUSY, s)
            else
              let q := genpd_power_off env s d true
              if q.1 ≠ 0 then (q.1, q.2) else (0, q.2)
          | none => (0, s)
        if step.1 ≠ 0 then step
        else
          let s2 := updDom step.2 d fun t => { t with status := GpdStatus.power_off }
          (0, decAndQueueMasters s2 (slaveLinks s2 d))

/-- genpd_power_off_work_fn (lines 369-378): the deferred work item takes
    the lock and runs genpd_poweroff with is_async = true.  Running a queued
    item clears its pending bit first. -/
def genpd_power_off_work_fn (env : Env) (s : State) (d : Nat) : State :=
  let s0 := { s with workQueue := s.workQueue.erase d }
  (genpd_poweroff env s0 d true).2

/-- pm_genpd_runtime_suspend (lines 388-452): optional governor stop_ok
    veto, save_state then stop with restore_state rollback on stop failure,
    suspend-latency bookkeeping, then (for non-IRQ-safe devices) an attempt
    to power the domain off whose result is ignored. -/
def pm_genpd_runtime_suspend (env : Env) (s : State) (dv : Nat) : Int × State :=
  match (s.devs dv).pm_domain with
  | none => (-EINVAL, s)
  | some d =>
    if env.runtime_pm_enabled dv = true ∧ env.has_stop_ok d = true
        ∧ env.stop_ok d dv = false then (-EBUSY, s)
    else
      let s1 := addEvent s (.saveState dv)
      if env.save_state_ret d dv ≠ 0 then (env.save_state_ret d dv, s1)
      else
        let s2 := addEvent s1 (.stopDev dv)
        if env.stop_ret d dv ≠ 0 then (env.stop_ret d dv, addEvent s2 (.restoreState dv))
        else
          let s3 :=
            if env.runtime_pm_enabled dv = true
                ∧ (s2.devs dv).suspend_latency_ns < env.suspend_elapsed dv then
              updDom (updDev s2 dv fun t =>
                  { t with suspend_latency_ns := env.suspend_elapsed dv,
                           constraint_changed := true }) d
                (fun t => { t with max_off_time_changed := true })
            else s2
          if env.irq_safe dv = true then (0, s3)
          else (0, (genpd_poweroff env s3 d false).2)

/-- pm_genpd_runtime_resume (lines 462-512): IRQ-safe devices skip the DAG
    walk (and latency measurement); otherwise power the domain on, aborting
    on error, then start + restore_state with resume-latency bookkeeping. -/
def pm_genpd_runtime_resume (env : Env) (fuel : Nat) (s : State) (dv : Nat) : Int × State :=
  match (s.devs dv).pm_domain with
  | none => (-EINVAL, s)
  | some d =>
    if env.irq_safe dv = true then
      (0, addEvent (addEvent s (.startDev dv)) (.restoreState dv))
    else
      let p := genpd_poweron env fuel s d
      if p.1 ≠ 0 then (p.1, p.2)
      else
        let s2 := addEvent (addEvent p.2 (.startDev dv)) (.restoreState dv)
        if env.runtime_pm_enabled dv = true
            ∧ (s2.devs dv).resume_latency_ns < env.resume_elapsed dv then
          (0, updDom (updDev s2 dv fun t =>
               { t with resume_latency_ns := env.resume_elapsed dv,
                        constraint_changed := true }) d
             (fun t => { t with max_off_time_changed := true }))
        else (0, s2)

/-- resume_needed (lines 650-659). -/
def resume_needed (env : Env) (d dv : Nat) : Bool :=
  if env.can_wakeup dv = false then false
  else if env.may_wakeup dv = true then env.active_wakeup d dv
  else !(env.active_wakeup d dv)

/-- pm_genpd_prepare (lines 670-734).  External pm_runtime_* calls are trace
    events; pm_generic_prepare is downstream and returns an Env-supplied
    value.  On the first prepare of a cycle, suspended_count is reset and
    suspend_power_off latched from the current status; a latched-off domain
    early-returns 0.  A downstream failure un-prepares and clears the latch
    when the count drops back to zero. -/
def pm_genpd_prepare (env : Env) (s : State) (dv : Nat) : Int × State :=
  match (s.devs dv).pm_domain with
  | none => (-EINVAL, s)
  | some d =>
    if env.wakeup_pending = true then (-EBUSY, s)
    else
      let s1 := if resume_needed env d dv = true then addEvent s (.rtResume dv) else s
      let s2 :=
        if (s1.doms d).prepared_count = 0 then
          updDom s1 d fun t =>
            { t with prepared_count := t.prepared_count + 1,
                     suspended_count := 0,
                     suspend_power_off := decide (t.status = GpdStatus.power_off) }
        else updDom s1 d fun t => { t with prepared_count := t.prepared_count + 1 }
      if (s2.doms d).suspend_power_off = true then (0, s2)
      else
        let s3 := addEvent (addEvent s2 (.rtResume dv)) (.genericPrepare dv)
        if env.generic_prepare_ret dv ≠ 0 then
          (env.generic_prepare_ret dv, updDom s3 d fun t =>
            let pc := t.prepared_count - 1
            { t with prepared_count := pc,
                     suspend_power_off := if pc = 0 then false else t.suspend_power_off })
        else (0, s3)

/-- __pm_genpd_add_device (lines 1223-1265).  genpd_alloc_dev_data installs
    the per-device binding (rejecting a device that already has one) and
    primes its timing data; the refusal paths free it again; on success the
    device is linked into the domain and the QoS observer registered. -/
def pm_genpd_add_device (env : Env) (s : State) (d : Nat) (dv : Nat)
    (td : Option (Int × Int)) : Int × State :=
  if (s.devs dv).domain_data_set = true then (-EINVAL, s)
  else
    let s1 := updDev s dv fun t =>
      { t with domain_data_set := true,
               constraint_changed := true,
               suspend_latency_ns := match td with | some p => p.1 | none => t.suspend_latency_ns,
               resume_latency_ns := match td with | some p => p.2 | none => t.resume_latency_ns }
    if 0 < (s1.doms d).prepared_count then
      (-EAGAIN, updDev s1 dv fun t => { t with domain_data_set := false })
    else
      let s1a := addEvent s1 (.attachDevCb d dv)
      if env.attach_ret d dv ≠ 0 then
        (env.attach_ret d dv, updDev s1a dv fun t => { t with domain_data_set := false })
      else
        let s2 := updDev s1a dv fun t => { t with pm_domain := some d }
        let s3 := updDom s2 d fun t =>
          { t with device_count := t.device_count + 1,
                   max_off_time_changed := true,
                   dev_list := t.dev_list ++ [dv] }
        (0, updDev (addEvent s3 (.qosAddNotifier dv)) dv fun t =>
          { t with qos_nb_registered := true })

/-- pm_genpd_remove_device (lines 1272-1317).  The registry lookup resolves
    through the device's pm_domain pointer (all modelled domains are
    registered).  The QoS observer is detached before the lock is taken and
    re-registered when the removal is refused with -EAGAIN. -/
def pm_genpd_remove_device (_env : Env) (s : State) (d : Nat) (dv : Nat) : Int × State :=
  if (s.devs dv).pm_domain ≠ some d then (-EINVAL, s)
  else
    let s1 := addEvent (updDev s dv fun t => { t with qos_nb_registered := false })
      (.qosRemoveNotifier dv)
    if 0 < (s1.doms d).prepared_count then
      (-EAGAIN, addEvent (updDev s1 dv fun t => { t with qos_nb_registered := true })
        (.qosAddNotifier dv))
    else
      let s2 := updDom s1 d fun t =>
        { t with device_count := t.device_count - 1,
                 max_off_time_changed := true,
                 dev_list := t.dev_list.erase dv }
      let s3 := addEvent s2 (.detachDevCb d dv)
      let s4 := updDev s3 dv fun t => { t with pm_domain := none }
      (0, updDev s4 dv fun t => { t with domain_data_set := false })

/-- Duplicate-link scan of pm_genpd_add_subdomain (lines 1347-1352). -/
def linkExists (s : State) (m sub : Nat) : Bool :=
  s.links.any fun l => decide (l.master = m) && decide (l.slave = sub)

/-- pm_genpd_add_subdomain (lines 1324-1367): reject a self-edge, reject an
    off master acquiring an on subdomain, reject a duplicate link; otherwise
    insert the link on both sides and bump the master's counter when the
    subdomain is on. -/
def pm_genpd_add_subdomain (s : State) (m sub : Nat) : Int × State :=
  if m = sub then (-EINVAL, s)
  else if (s.doms m).status = GpdStatus.power_off
      ∧ (s.doms sub).status ≠ GpdStatus.power_off then (-EINVAL, s)
  else if linkExists s m sub = true then (-EINVAL, s)
  else
    let s1 : State := { s with links := s.links ++ [⟨m, sub⟩] }
    if (s.doms sub).status ≠ GpdStatus.power_off then (0, genpd_sd_counter_inc s1 m)
    else (0, s1)

/-- Removal of the first link m→sub from the global list, mirroring the
    list_for_each_entry_safe walk of the master's master_links. -/
def removeLinkFirst (m sub : Nat) : List Link → Option (List Link)
  | [] => none
  | l :: rest =>
    if l.master = m ∧ l.slave = sub then some rest
    else (removeLinkFirst m sub rest).map (l :: ·)

/-- pm_genpd_remove_subdomain (lines 1375-1416): refuse while the subdomain
    has slaves or devices of its own; otherwise unlink the edge and, when
    the subdomain is on, decrement the master's counter. -/
def pm_genpd_remove_subdomain (s : State) (m sub : Nat) : Int × State :=
  if masterLinks s sub ≠ [] ∨ (s.doms sub).device_count ≠ 0 then (-EBUSY, s)
  else
    match removeLinkFirst m sub s.links with
    | none => (-EINVAL, s)
    | some ls =>
      let s1 : State := { s with links := ls }
      if (s.doms sub).status ≠ GpdStatus.power_off then (0, genpd_sd_counter_dec s1 m)
      else (0, s1)

/-- Fresh domain as set up by pm_genpd_init (lines 1472-1522); counters and
    latency statistics start zeroed (the containing struct is
    zero-initialised by the provider). -/
def initDom (is_off : Bool) : DomState :=
  { status := if is_off then GpdStatus.power_off else GpdStatus.active,
    sd_count := 0, prepared_count := 0, suspended_count := 0,
    suspend_power_off := false, device_count := 0, dev_list := [],
    power_on_latency_ns := 0, power_off_latency_ns := 0,
    max_off_time_changed := true, locked := false }

/-- Fresh, unattached device. -/
def initDev : DevState :=
  { pm_domain := none, domain_data_set := false, qos_nb_registered := false,
    runtime_suspended := false, suspend_latency_ns := 0, resume_latency_ns := 0,
    constraint_changed := false }

/-- World in which every domain identifier has been freshly initialised via
    pm_genpd_init with the given initial-off choice and no links exist. -/
def initState (is_off : Nat → Bool) : State :=
  { doms := fun d => initDom (is_off d), devs := fun _ => initDev,
    links := [], workQueue := [], trace := [] }

/-- Topology / DAG operations (the four operations named by the sd_count
    invariant claim).  Power-off is invoked as its callers do: with the
    domain's mutex held around the call. -/
inductive TopOp where
  | addSub (m sub : Nat)
  | removeSub (m sub : Nat)
  | powerOn (fuel : Nat) (d : Nat)
  | powerOff (d : Nat) (isAsync : Bool)

/-- Interpretation of a topology / power operation. -/
def applyTopOp (env : Env) (s : State) : TopOp → State
  | .addSub m sub => (pm_genpd_add_subdomain s m sub).2
  | .removeSub m sub => (pm_genpd_remove_subdomain s m sub).2
  | .powerOn fuel d => (genpd_poweron env fuel s d).2
  | .powerOff d a => (genpd_poweroff env s d a).2

/-- All modelled entry points, for whole-system safety invariants.  The
    runtime suspend / resume constructors model the runtime-PM core invoking
    the genpd callback and, on success, flipping the device's
    runtime-suspended bit. -/
inductive Op where
  | topo (t : TopOp)
  | runtimeSuspend (dv : Nat)
  | runtimeResume (fuel : Nat) (dv : Nat)
  | prepareDev (dv : Nat)
  | addDevice (d dv : Nat) (td : Option (Int × Int))
  | removeDevice (d dv : Nat)
  | runWork (d : Nat)

/-- Interpretation of a modelled entry point. -/
def applyOp (env : Env) (s : State) : Op → State
  | .topo t => applyTopOp env s t
  | .runtimeSuspend dv =>
    let p := pm_genpd_runtime_suspend env s dv
    if p.1 = 0 then updDev p.2 dv (fun t => { t with runtime_suspended := true }) else p.2
  | .runtimeResume fuel dv =>
    let p := pm_genpd_runtime_resume env fuel s dv
    if p.1 = 0 then updDev p.2 dv (fun t => { t with runtime_suspended := false }) else p.2
  | .prepareDev dv => (pm_genpd_prepare env s dv).2
  | .addDevice d dv td => (pm_genpd_add_device env s d dv td).2
  | .removeDevice d dv => (pm_genpd_remove_device env s d dv).2
  | .runWork d => genpd_power_off_work_fn env s d

/-- Count, over a link list, of links whose master is `M` and whose slave is
    active under the given status assignment. -/
def countActive (st : Nat → GpdStatus) (ls : List Link) (M : Nat) : Nat :=
  ls.countP fun l => decide (l.master = M) && decide (st l.slave = GpdStatus.active)

/-- Status assignment of a state. -/
def statusMap (s : State) : Nat → GpdStatus :=
  fun x => (s.doms x).status

/-- Number of links in `M`'s master_links whose slave is currently active. -/
def countActiveSlaves (s : State) (M : Nat) : Nat :=
  countActive (statusMap s) s.links M

/-- Signed difference between a domain's subdomain counter and the number of
    its links with an active slave. -/
def balance (s : State) (M : Nat) : Int :=
  (s.doms M).sd_count - (countActiveSlaves s M : Int)

/-- Master counting of a link list (number of links with the given master). -/
def countMasters (L : List Link) (M : Nat) : Nat :=
  L.countP fun l => decide (l.master = M)

/-- Quiescent-point invariant: no duplicate links and every domain's
    subdomain counter agrees with its active-slave link count. -/
def GenpdInv (s : State) : Prop :=
  s.links.Nodup ∧ ∀ M, balance s M = 0

/-- Behavioural contract of a recursive power-on used for the masters:
    starting from a state with no duplicate links and a non-negative balance
    it preserves the link list, every domain's balance, every lock flag, and
    the status of every domain whose mutex is held. -/
def PonOK (pon : State → Nat → Int × State) : Prop :=
  ∀ s d, s.links.Nodup → (∀ M, 0 ≤ balance s M) →
    (pon s d).2.links = s.links
    ∧ (∀ M, balance (pon s d).2 M = balance s M)
    ∧ (∀ X, ((pon s d).2.doms X).locked = (s.doms X).locked)
    ∧ (∀ X, (s.doms X).locked = true → ((pon s d).2.doms X).status = (s.doms X).status)

/-- Count of devices on a list that are not runtime-suspended or are
    IRQ-safe (the `not_suspended` accumulator of genpd_poweroff). -/
def notSuspendedCount (env : Env) (s : State) (L : List Nat) : Nat :=
  L.countP fun dv => (!(s.devs dv).runtime_suspended) || env.irq_safe dv

/-- Environment fixture for concrete test instances: every callback present
    and succeeding, no governor, runtime PM enabled, no QoS flags or wakeups,
    zero elapsed times. -/
def baseEnv : Env :=
  { power_on_cb := fun _ => some 0, power_off_cb := fun _ => some 0,
    elapsed_on := fun _ => 0, elapsed_off := fun _ => 0,
    save_state_ret := fun _ _ => 0, stop_ret := fun _ _ => 0,
    restore_ret := fun _ _ => 0, start_ret := fun _ _ => 0,
    attach_ret := fun _ _ => 0,
    has_stop_ok := fun _ => false, stop_ok := fun _ _ => true,
    has_power_down_ok := fun _ => false, power_down_ok := fun _ => true,
    runtime_pm_enabled := fun _ => true, irq_safe := fun _ => false,
    qos_flags_set := fun _ => false, wakeup_pending := false,
    can_wakeup := fun _ => false, may_wakeup := fun _ => false,
    active_wakeup := fun _ _ => false, generic_prepare_ret := fun _ => 0,
    suspend_elapsed := fun _ => 0, resume_elapsed := fun _ => 0 }

/-- State fixture: a single uniform domain record for every identifier, with
    the given devices and no links. -/
def uniformState (t : DomState) (g : Nat → DevState) : State :=
  { doms := fun _ => t, devs := g, links := [], workQueue := [], trace := [] }

/-- Linear chain A(0) ← B(1) ← C(2), all initially off, with device 0
    attached to C. -/
def chainState : State :=
  { doms := fun x => if x = 2 then { initDom true with dev_list := [0], device_count := 1 }
      else initDom true,
    devs := fun x => if x = 0 then
        { initDev with pm_domain := some 2, runtime_suspended := true }
      else initDev,
    links := [⟨0, 1⟩, ⟨1, 2⟩], workQueue := [], trace := [] }

/-- Chain environment in which the root master A(0) has a failing power_on
    callback. -/
def chainEnv (e : Int) : Env :=
  { baseEnv with power_on_cb := fun d => if d = 0 then some e else some 0 }

/-! Basic lemmas about the state primitives. -/

theorem updDom_doms (s : State) (d : Nat) (f : DomState → DomState) (X : Nat) :
    (updDom s d f).doms X = if X = d then f (s.doms X) else s.doms X := rfl

theorem updDom_links (s : State) (d : Nat) (f : DomState → DomState) :
    (updDom s d f).links = s.links := rfl

theorem updDev_doms (s : State) (dv : Nat) (f : DevState → DevState) :
    (updDev s dv f).doms = s.doms := rfl

theorem updDev_links (s : State) (dv : Nat) (f : DevState → DevState) :
    (updDev s dv f).links = s.links := rfl

theorem addEvent_doms (s : State) (e : Event) : (addEvent s e).doms = s.doms := rfl

theorem addEvent_links (s : State) (e : Event) : (addEvent s e).links = s.links := rfl

theorem addEvent_workQueue (s : State) (e : Event) : (addEvent s e).workQueue = s.workQueue := rfl

theorem queueWork_doms (s : State) (d : Nat) :
    (genpd_queue_power_off_work s d).doms = s.doms := by
  unfold genpd_queue_power_off_work; split <;> rfl

theorem queueWork_links (s : State) (d : Nat) :
    (genpd_queue_power_off_work s d).links = s.links := by
  unfold genpd_queue_power_off_work; split <;> rfl

theorem queueWork_devs (s : State) (d : Nat) :
    (genpd_queue_power_off_work s d).devs = s.devs := by
  unfold genpd_queue_power_off_work; split <;> rfl

theorem inc_links (s : State) (X : Nat) : (genpd_sd_counter_inc s X).links = s.links := rfl

theorem inc_status (s : State) (X M : Nat) :
    ((genpd_sd_counter_inc s X).doms M).status = (s.doms M).status := by
  by_cases h : M = X <;> simp [genpd_sd_counter_inc, updDom, h]

theorem inc_locked (s : State) (X M : Nat) :
    ((genpd_sd_counter_inc s X).doms M).locked = (s.doms M).locked := by
  by_cases h : M = X <;> simp [genpd_sd_counter_inc, updDom, h]

theorem inc_sd (s : State) (X M : Nat) :
    ((genpd_sd_counter_inc s X).doms M).sd_count
      = (s.doms M).sd_count + (if M = X then 1 else 0) := by
  by_cases h : M = X <;> simp [genpd_sd_counter_inc, updDom, h]

theorem dec_links (s : State) (X : Nat) : (genpd_sd_counter_dec s X).links = s.links := rfl

theorem dec_status (s : State) (X M : Nat) :
    ((genpd_sd_counter_dec s X).doms M).status = (s.doms M).status := by
  by_cases h : M = X <;> simp [genpd_sd_counter_dec, updDom, h] <;> split <;> rfl

theorem dec_locked (s : State) (X M : Nat) :
    ((genpd_sd_counter_dec s X).doms M).locked = (s.doms M).locked := by
  by_cases h : M = X <;> simp [genpd_sd_counter_dec, updDom, h] <;> split <;> rfl

theorem dec_sd (s : State) (X M : Nat) (h : (s.doms X).sd_count ≠ 0) :
    ((genpd_sd_counter_dec s X).doms M).sd_count
      = (s.doms M).sd_count - (if M = X then 1 else 0) := by
  by_cases hm : M = X
  · subst hm; simp [genpd_sd_counter_dec, updDom, h]
  · simp [genpd_sd_counter_dec, updDom, hm]

theorem dec_sd_other (s : State) (X M : Nat) (h : M ≠ X) :
    ((genpd_sd_counter_dec s X).doms M).sd_count = (s.doms M).sd_count := by
  simp [genpd_sd_counter_dec, updDom, h]

theorem lockDom_links (s : State) (d : Nat) : (lockDom s d).links = s.links := rfl

theorem lockDom_status (s : State) (d M : Nat) :
    ((lockDom s d).doms M).status = (s.doms M).status := by
  by_cases h : M = d <;> simp [lockDom, updDom, h]

theorem lockDom_sd (s : State) (d M : Nat) :
    ((lockDom s d).doms M).sd_count = (s.doms M).sd_count := by
  by_cases h : M = d <;> simp [lockDom, updDom, h]

theorem unlockDom_links (s : State) (d : Nat) : (unlockDom s d).links = s.links := rfl

theorem unlockDom_status (s : State) (d M : Nat) :
    ((unlockDom s d).doms M).status = (s.doms M).status := by
  by_cases h : M = d <;> simp [unlockDom, updDom, h]

theorem unlockDom_sd (s : State) (d M : Nat) :
    ((unlockDom s d).doms M).sd_count = (s.doms M).sd_count := by
  by_cases h : M = d <;> simp [unlockDom, updDom, h]

/-! Congruence for the active-slave count and the balance. -/

theorem countActiveSlaves_eq_of (s s' : State) (hl : s'.links = s.links)
    (hs : ∀ X, (s'.doms X).status = (s.doms X).status) (M : Nat) :
    countActiveSlaves s' M = countActiveSlaves s M := by
  unfold countActiveSlaves countActive
  rw [hl]
  apply List.countP_congr
  intro l _
  simp [statusMap, hs l.slave]

theorem balance_eq_of (s s' : State) (hl : s'.links = s.links)
    (hs : ∀ X, (s'.doms X).status = (s.doms X).status)
    (M : Nat) (hsd : (s'.doms M).sd_count = (s.doms M).sd_count) :
    balance s' M = balance s M := by
  unfold balance
  rw [hsd, countActiveSlaves_eq_of s s' hl hs M]

theorem balance_inc (s : State) (X M : Nat) :
    balance (genpd_sd_counter_inc s X) M = balance s M + (if M = X then 1 else 0) := by
  unfold balance
  rw [inc_sd,
    countActiveSlaves_eq_of s (genpd_sd_counter_inc s X) (inc_links s X) (inc_status s X) M]
  ring

theorem balance_dec (s : State) (X M : Nat) (h : (s.doms X).sd_count ≠ 0) :
    balance (genpd_sd_counter_dec s X) M = balance s M - (if M = X then 1 else 0) := by
  unfold balance
  rw [dec_sd s X M h,
    countActiveSlaves_eq_of s (genpd_sd_counter_dec s X) (dec_links s X) (dec_status s X) M]
  ring

theorem balance_queueWork (s : State) (X M : Nat) :
    balance (genpd_queue_power_off_work s X) M = balance s M := by
  apply balance_eq_of
  · exact queueWork_links s X
  · intro Y; rw [queueWork_doms]
  · rw [queueWork_doms]

theorem sd_pos_of_balance_ge_one (s : State) (X : Nat) (h : 1 ≤ balance s X) :
    (s.doms X).sd_count ≠ 0 := by
  unfold balance at h
  have : (0 : Int) ≤ (countActiveSlaves s X : Int) := Int.natCast_nonneg _
  omega

/-! Status-override counting lemmas: flipping one domain's status changes the
    active-slave count of each master by the number of links into the flipped
    domain. -/

theorem countActive_override_active (st : Nat → GpdStatus) (d : Nat)
    (hd : st d = GpdStatus.power_off) (ls : List Link) (M : Nat) :
    countActive (fun x => if x = d then GpdStatus.active else st x) ls M
      = countActive st ls M
        + ls.countP (fun l => decide (l.master = M) && decide (l.slave = d)) := by
  induction ls with
  | nil => rfl
  | cons l t ih =>
    unfold countActive at ih ⊢
    rw [List.countP_cons, List.countP_cons, List.countP_cons, ih]
    by_cases hs : l.slave = d
    · by_cases hm : l.master = M <;> simp [hs, hm, hd] <;> omega
    · by_cases hm : l.master = M <;> simp [hs, hm] <;> omega

theorem countActive_override_off (st : Nat → GpdStatus) (d : Nat)
    (hd : st d = GpdStatus.active) (ls : List Link) (M : Nat) :
    countActive (fun x => if x = d then GpdStatus.power_off else st x) ls M
      + ls.countP (fun l => decide (l.master = M) && decide (l.slave = d))
      = countActive st ls M := by
  induction ls with
  | nil => rfl
  | cons l t ih =>
    unfold countActive at ih ⊢
    rw [List.countP_cons, List.countP_cons, List.countP_cons, ← ih]
    by_cases hs : l.slave = d
    · by_cases hm : l.master = M <;> simp [hs, hm, hd] <;> omega
    · by_cases hm : l.master = M <;> simp [hs, hm] <;> omega

theorem countMasters_slaveLinks (s : State) (d M : Nat) :
    countMasters (slaveLinks s d) M
      = s.links.countP fun l => decide (l.master = M) && decide (l.slave = d) := by
  unfold countMasters slaveLinks
  rw [List.countP_filter]

theorem countMasters_reverse (L : List Link) (M : Nat) :
    countMasters L.reverse M = countMasters L M :=
  (List.reverse_perm L).countP_eq _

theorem countMasters_cons (l : Link) (L : List Link) (M : Nat) :
    countMasters (l :: L) M
      = countMasters L M + (if l.master = M then 1 else 0) := by
  unfold countMasters
  rw [List.countP_cons]
  by_cases h : l.master = M <;> simp [h]

theorem countMasters_pos_of_mem (L : List Link) (l : Link) (hl : l ∈ L) :
    1 ≤ countMasters L l.master := by
  unfold countMasters
  have : 0 < L.countP fun x => decide (x.master = l.master) :=
    List.countP_pos_iff.mpr ⟨l, hl, by simp⟩
  omega

theorem slaveLinks_mem_links (s : State) (d : Nat) (l : Link) (hl : l ∈ slaveLinks s d) :
    l ∈ s.links := List.mem_of_mem_filter hl

theorem slaveLinks_slave_eq (s : State) (d : Nat) (l : Link) (hl : l ∈ slaveLinks s d) :
    l.slave = d := by
  have := List.of_mem_filter hl
  simpa using this

theorem slaveLinks_masters_pairwise (s : State) (d : Nat) (hnd : s.links.Nodup) :
    (slaveLinks s d).Pairwise fun a b => a.master ≠ b.master := by
  have h1 : (slaveLinks s d).Nodup := hnd.filter _
  refine List.Pairwise.imp_of_mem ?_ h1
  intro a b ha hb hne heq
  apply hne
  have ha' := slaveLinks_slave_eq s d a ha
  have hb' := slaveLinks_slave_eq s d b hb
  cases a; cases b
  simp_all

/-! Topology-preservation of the provider-callback wrappers. -/

theorem updDom_status_of (s : State) (d : Nat) (f : DomState → DomState)
    (hf : ∀ t, (f t).status = t.status) (X : Nat) :
    ((updDom s d f).doms X).status = (s.doms X).status := by
  by_cases h : X = d <;> simp [updDom, h, hf]

theorem updDom_sd_of (s : State) (d : Nat) (f : DomState → DomState)
    (hf : ∀ t, (f t).sd_count = t.sd_count) (X : Nat) :
    ((updDom s d f).doms X).sd_count = (s.doms X).sd_count := by
  by_cases h : X = d <;> simp [updDom, h, hf]

theorem updDom_locked_of (s : State) (d : Nat) (f : DomState → DomState)
    (hf : ∀ t, (f t).locked = t.locked) (X : Nat) :
    ((updDom s d f).doms X).locked = (s.doms X).locked := by
  by_cases h : X = d <;> simp [updDom, h, hf]

theorem genpd_power_on_topo (env : Env) (s : State) (d : Nat) (timed : Bool) :
    (genpd_power_on env s d timed).2.links = s.links
    ∧ (∀ X, ((genpd_power_on env s d timed).2.doms X).status = (s.doms X).status)
    ∧ (∀ X, ((genpd_power_on env s d timed).2.doms X).sd_count = (s.doms X).sd_count)
    ∧ (∀ X, ((genpd_power_on env s d timed).2.doms X).locked = (s.doms X).locked) := by
  unfold genpd_power_on
  rcases env.power_on_cb d with _ | ret
  · exact ⟨rfl, fun _ => rfl, fun _ => rfl, fun _ => rfl⟩
  · simp only
    split_ifs
    all_goals
      refine ⟨rfl, ?_, ?_, ?_⟩ <;> intro X <;> by_cases hX : X = d <;>
        simp [addEvent, updDom, hX]

theorem genpd_power_off_topo (env : Env) (s : State) (d : Nat) (timed : Bool) :
    (genpd_power_off env s d timed).2.links = s.links
    ∧ (∀ X, ((genpd_power_off env s d timed).2.doms X).status = (s.doms X).status)
    ∧ (∀ X, ((genpd_power_off env s d timed).2.doms X).sd_count = (s.doms X).sd_count)
    ∧ (∀ X, ((genpd_power_off env s d timed).2.doms X).locked = (s.doms X).locked) := by
  unfold genpd_power_off
  rcases env.power_off_cb d with _ | ret
  · exact ⟨rfl, fun _ => rfl, fun _ => rfl, fun _ => rfl⟩
  · simp only
    split_ifs
    all_goals
      refine ⟨rfl, ?_, ?_, ?_⟩ <;> intro X <;> by_cases hX : X = d <;>
        simp [addEvent, updDom, hX]

theorem balance_genpd_power_on (env : Env) (s : State) (d : Nat) (timed : Bool) (M : Nat) :
    balance (genpd_power_on env s d timed).2 M = balance s M := by
  obtain ⟨h1, h2, h3, _⟩ := genpd_power_on_topo env s d timed
  exact balance_eq_of s _ h1 h2 M (h3 M)

theorem balance_genpd_power_off (env : Env) (s : State) (d : Nat) (timed : Bool) (M : Nat) :
    balance (genpd_power_off env s d timed).2 M = balance s M := by
  obtain ⟨h1, h2, h3, _⟩ := genpd_power_off_topo env s d timed
  exact balance_eq_of s _ h1 h2 M (h3 M)

theorem lockDom_locked (s : State) (d X : Nat) :
    ((lockDom s d).doms X).locked = if X = d then true else (s.doms X).locked := by
  by_cases h : X = d <;> simp [lockDom, updDom, h]

theorem unlockDom_locked (s : State) (d X : Nat) :
    ((unlockDom s d).doms X).locked = if X = d then false else (s.doms X).locked := by
  by_cases h : X = d <;> simp [unlockDom, updDom, h]

theorem balance_lockDom (s : State) (d M : Nat) :
    balance (lockDom s d) M = balance s M :=
  balance_eq_of s _ (lockDom_links s d) (lockDom_status s d) M (lockDom_sd s d M)

theorem balance_unlockDom (s : State) (d M : Nat) :
    balance (unlockDom s d) M = balance s M :=
  balance_eq_of s _ (unlockDom_links s d) (unlockDom_status s d) M (unlockDom_sd s d M)

theorem decAndQueueMasters_ok :
    ∀ (L : List Link) (s : State),
    L.Pairwise (fun a b => a.master ≠ b.master) →
    (∀ l ∈ L, 1 ≤ balance s l.master) →
    (decAndQueueMasters s L).links = s.links
    ∧ (∀ X, ((decAndQueueMasters s L).doms X).locked = (s.doms X).locked)
    ∧ (∀ X, ((decAndQueueMasters s L).doms X).status = (s.doms X).status)
    ∧ (∀ M, balance (decAndQueueMasters s L) M = balance s M - (countMasters L M : Int)) := by
  intro L
  induction L with
  | nil =>
    intro s _ _
    exact ⟨rfl, fun _ => rfl, fun _ => rfl, fun M => by simp [decAndQueueMasters, countMasters]⟩
  | cons l rest ih =>
    intro s hpw hge
    have hsd : (s.doms l.master).sd_count ≠ 0 :=
      sd_pos_of_balance_ge_one s l.master (hge l (List.mem_cons_self l rest))
    set s1 := genpd_queue_power_off_work (genpd_sd_counter_dec s l.master) l.master with hs1
    have h1links : s1.links = s.links := by
      rw [hs1, queueWork_links, dec_links]
    have h1status : ∀ X, (s1.doms X).status = (s.doms X).status := by
      intro X; rw [hs1, queueWork_doms, dec_status]
    have h1locked : ∀ X, (s1.doms X).locked = (s.doms X).locked := by
      intro X; rw [hs1, queueWork_doms, dec_locked]
    have h1bal : ∀ M, balance s1 M = balance s M - (if M = l.master then 1 else 0) := by
      intro M; rw [hs1, balance_queueWork, balance_dec s l.master M hsd]
    have hge1 : ∀ l' ∈ rest, 1 ≤ balance s1 l'.master := by
      intro l' hl'
      have hne : l.master ≠ l'.master := (List.pairwise_cons.mp hpw).1 l' hl'
      rw [h1bal]
      have := hge l' (List.mem_cons_of_mem l hl')
      split
      · omega
      · omega
    obtain ⟨hl2, hlk2, hst2, hb2⟩ := ih s1 (List.pairwise_cons.mp hpw).2 hge1
    have hstep : decAndQueueMasters s (l :: rest) = decAndQueueMasters s1 rest := by
      rw [hs1]; rfl
    refine ⟨?_, ?_, ?_, ?_⟩
    · rw [hstep, hl2, h1links]
    · intro X; rw [hstep, hlk2, h1locked]
    · intro X; rw [hstep, hst2, h1status]
    · intro M
      rw [hstep, hb2, h1bal, countMasters_cons]
      have : (↑(countMasters rest M + if l.master = M then 1 else 0) : Int)
          = (countMasters rest M : Int) + (if l.master = M then 1 else 0) := by
        split <;> simp
      rw [this]
      by_cases hM : M = l.master
      · simp [hM]; omega
      · have hM' : ¬ l.master = M := fun h => hM h.symm
        simp [hM, hM']

theorem poweronMasters_ok (pon : State → Nat → Int × State) (hpon : PonOK pon) :
    ∀ (L : List Link) (s : State), s.links.Nodup → (∀ M, 0 ≤ balance s M) →
    (poweronMasters pon s L).2.links = s.links
    ∧ (∀ X, ((poweronMasters pon s L).2.doms X).locked = (s.doms X).locked)
    ∧ (∀ X, (s.doms X).locked = true →
        ((poweronMasters pon s L).2.doms X).status = (s.doms X).status)
    ∧ ((poweronMasters pon s L).1 = 0 →
        ∀ M, balance (poweronMasters pon s L).2 M = balance s M + (countMasters L M : Int))
    ∧ ((poweronMasters pon s L).1 ≠ 0 →
        ∀ M, balance (poweronMasters pon s L).2 M = balance s M) := by
  intro L
  induction L with
  | nil =>
    intro s _ _
    refine ⟨rfl, fun _ => rfl, fun _ _ => rfl, ?_, ?_⟩
    · intro _ M; simp [poweronMasters, countMasters]
    · intro h; exact absurd rfl h
  | cons l rest ih =>
    intro s hnd hb
    set s1 := genpd_sd_counter_inc s l.master with hs1
    have hb1 : ∀ M, 0 ≤ balance s1 M := by
      intro M; rw [hs1, balance_inc]
      have := hb M; split <;> omega
    have hnd1 : s1.links.Nodup := by rw [hs1, inc_links]; exact hnd
    obtain ⟨hpl, hpb, hplk, hpst⟩ := hpon s1 l.master hnd1 hb1
    set p := pon s1 l.master with hp
    have hb2 : ∀ M, 0 ≤ balance p.2 M := fun M => (hpb M) ▸ hb1 M
    have hbl1 : 1 ≤ balance p.2 l.master := by
      have := hpb l.master
      have h0 := hb l.master
      rw [this, hs1, balance_inc]
      simp
      omega
    by_cases hr : p.1 = 0
    · -- the master powered on; process the rest
      have hnd2 : p.2.links.Nodup := by rw [hpl, hs1, inc_links]; exact hnd
      obtain ⟨hql, hqlk, hqst, hqb0, hqbe⟩ := ih p.2 hnd2 hb2
      set q := poweronMasters pon p.2 rest with hq
      have hstep : poweronMasters pon s (l :: rest)
          = if q.1 ≠ 0 then
              (q.1, genpd_queue_power_off_work (genpd_sd_counter_dec q.2 l.master) l.master)
            else (0, q.2) := by
        simp only [poweronMasters, ← hs1, ← hp, ← hq]
        rw [if_neg (not_not_intro hr)]
      by_cases hq1 : q.1 = 0
      · rw [hstep, if_neg (not_not_intro hq1)]
        refine ⟨?_, ?_, ?_, ?_, ?_⟩
        · rw [hql, hpl, hs1, inc_links]
        · intro X; rw [hqlk, hplk, hs1, inc_locked]
        · intro X hX
          have hX1 : (s1.doms X).locked = true := by rw [hs1, inc_locked]; exact hX
          have hX2 : (p.2.doms X).locked = true := by rw [hplk]; exact hX1
          rw [hqst X hX2, hpst X hX1, hs1, inc_status]
        · intro _ M
          rw [hqb0 hq1 M, hpb, hs1, balance_inc, countMasters_cons]
          have : (↑(countMasters rest M + if l.master = M then 1 else 0) : Int)
              = (countMasters rest M : Int) + (if l.master = M then 1 else 0) := by
            split <;> simp
          rw [this]
          by_cases hM : M = l.master
          · simp [hM]; omega
          · have hM' : ¬ l.master = M := fun h => hM h.symm
            simp [hM, hM']
        · intro habs; exact absurd rfl habs
      · rw [hstep, if_pos hq1]
        have hbql : 1 ≤ balance q.2 l.master := by rw [hqbe hq1]; exact hbl1
        have hsdq : (q.2.doms l.master).sd_count ≠ 0 :=
          sd_pos_of_balance_ge_one q.2 l.master hbql
        refine ⟨?_, ?_, ?_, ?_, ?_⟩
        · rw [queueWork_links, dec_links, hql, hpl, hs1, inc_links]
        · intro X
          rw [queueWork_doms, dec_locked, hqlk, hplk, hs1, inc_locked]
        · intro X hX
          have hX1 : (s1.doms X).locked = true := by rw [hs1, inc_locked]; exact hX
          have hX2 : (p.2.doms X).locked = true := by rw [hplk]; exact hX1
          rw [queueWork_doms, dec_status, hqst X hX2, hpst X hX1, hs1, inc_status]
        · intro habs; exact absurd habs hq1
        · intro _ M
          rw [balance_queueWork, balance_dec q.2 l.master M hsdq, hqbe hq1 M, hpb, hs1,
            balance_inc]
          split <;> omega
    · -- the master's power-on failed: undo the bump for this link only
      have hsdp : (p.2.doms l.master).sd_count ≠ 0 :=
        sd_pos_of_balance_ge_one p.2 l.master hbl1
      have hstep : poweronMasters pon s (l :: rest)
          = (p.1, genpd_sd_counter_dec p.2 l.master) := by
        simp only [poweronMasters, ← hs1, ← hp]
        rw [if_pos hr]
      rw [hstep]
      refine ⟨?_, ?_, ?_, ?_, ?_⟩
      · rw [dec_links, hpl, hs1, inc_links]
      · intro X; rw [dec_locked, hplk, hs1, inc_locked]
      · intro X hX
        have hX1 : (s1.doms X).locked = true := by rw [hs1, inc_locked]; exact hX
        rw [dec_status, hpst X hX1, hs1, inc_status]
      · intro habs; exact absurd habs hr
      · intro _ M
        rw [balance_dec p.2 l.master M hsdp, hpb, hs1, balance_inc]
        split <;> omega

theorem genpd_poweron_locked_aux_ok (env : Env) (pon : State → Nat → Int × State)
    (hpon : PonOK pon) (s : State) (d : Nat)
    (hnd : s.links.Nodup) (hb : ∀ M, 0 ≤ balance s M) (hlk : (s.doms d).locked = true) :
    (genpd_poweron_locked_aux env pon s d).2.links = s.links
    ∧ (∀ M, balance (genpd_poweron_locked_aux env pon s d).2 M = balance s M)
    ∧ (∀ X, ((genpd_poweron_locked_aux env pon s d).2.doms X).locked = (s.doms X).locked)
    ∧ (∀ X, (s.doms X).locked = true → X ≠ d →
        ((genpd_poweron_locked_aux env pon s d).2.doms X).status = (s.doms X).status) := by
  by_cases hguard : (s.doms d).status = GpdStatus.active
      ∨ (0 < (s.doms d).prepared_count ∧ (s.doms d).suspend_power_off = true)
  · have hstep : genpd_poweron_locked_aux env pon s d = (0, s) := by
      simp only [genpd_poweron_locked_aux]; rw [if_pos hguard]
    rw [hstep]
    exact ⟨rfl, fun _ => rfl, fun _ => rfl, fun _ _ _ => rfl⟩
  · have hoff : (s.doms d).status = GpdStatus.power_off := by
      rcases h : (s.doms d).status
      · exact absurd (Or.inl h) hguard
      · rfl
    obtain ⟨hml, hmlk, hmst, hmb0, hmbe⟩ :=
      poweronMasters_ok pon hpon (slaveLinks s d) s hnd hb
    set p := poweronMasters pon s (slaveLinks s d) with hp
    by_cases hp1 : p.1 = 0
    · obtain ⟨hql, hqst, hqsd, hqlk⟩ := genpd_power_on_topo env p.2 d true
      set q := genpd_power_on env p.2 d true with hq
      have hqb : ∀ M, balance q.2 M = balance s M + (countMasters (slaveLinks s d) M : Int) := by
        intro M; rw [hq, balance_genpd_power_on, hmb0 hp1 M]
      have hqoff : (q.2.doms d).status = GpdStatus.power_off := by
        rw [hq, hqst d, hmst d hlk, hoff]
      have hqlinks : q.2.links = s.links := by rw [hq, hql, hml]
      by_cases hq1 : q.1 = 0
      · -- all masters on and the provider callback succeeded: set status ACTIVE
        have hstep : genpd_poweron_locked_aux env pon s d
            = (0, updDom q.2 d fun t => { t with status := GpdStatus.active }) := by
          simp only [genpd_poweron_locked_aux, ← hp, ← hq]
          rw [if_neg hguard, if_neg (not_not_intro hp1), if_neg (not_not_intro hq1)]
        rw [hstep]
        refine ⟨?_, ?_, ?_, ?_⟩
        · rw [updDom_links, hqlinks]
        · intro M
          have hsd' : ((updDom q.2 d fun t =>
              { t with status := GpdStatus.active }).doms M).sd_count
              = (q.2.doms M).sd_count :=
            updDom_sd_of q.2 d (fun t => { t with status := GpdStatus.active })
              (fun t => rfl) M
          have hstf : statusMap (updDom q.2 d fun t => { t with status := GpdStatus.active })
              = fun x => if x = d then GpdStatus.active else statusMap q.2 x := by
            funext x; by_cases hx : x = d <;> simp [statusMap, updDom, hx]
          have hca : countActiveSlaves (updDom q.2 d fun t =>
              { t with status := GpdStatus.active }) M
              = countActiveSlaves q.2 M
                + q.2.links.countP (fun l => decide (l.master = M) && decide (l.slave = d)) := by
            unfold countActiveSlaves
            rw [updDom_links, hstf]
            exact countActive_override_active (statusMap q.2) d hqoff q.2.links M
          have hcm : q.2.links.countP (fun l => decide (l.master = M) && decide (l.slave = d))
              = countMasters (slaveLinks s d) M := by
            rw [hqlinks, countMasters_slaveLinks]
          unfold balance at *
          rw [hsd', hca, hcm]
          have := hqb M
          push_cast at *
          omega
        · intro X
          rw [updDom_locked_of q.2 d (fun t => { t with status := GpdStatus.active })
            (fun t => rfl) X, hq, hqlk, hmlk]
        · intro X hX hXd
          have : ((updDom q.2 d fun t => { t with status := GpdStatus.active }).doms X)
              = q.2.doms X := by simp [updDom, hXd]
          rw [this, hq, hqst, hmst X hX]
      · -- the provider power_on callback failed: roll back every master
        have hpw : ((slaveLinks s d).reverse).Pairwise fun a b => a.master ≠ b.master := by
          rw [List.pairwise_reverse]
          exact (slaveLinks_masters_pairwise s d hnd).imp fun h => h.symm
        have hge : ∀ l ∈ (slaveLinks s d).reverse, 1 ≤ balance q.2 l.master := by
          intro l hl
          rw [List.mem_reverse] at hl
          have h1 := countMasters_pos_of_mem (slaveLinks s d) l hl
          have h2 := hqb l.master
          have h3 := hb l.master
          omega
        obtain ⟨hrl, hrlk, hrst, hrb⟩ := decAndQueueMasters_ok (slaveLinks s d).reverse q.2 hpw hge
        have hstep : genpd_poweron_locked_aux env pon s d
            = (q.1, decAndQueueMasters q.2 (slaveLinks s d).reverse) := by
          simp only [genpd_poweron_locked_aux, ← hp, ← hq]
          rw [if_neg hguard, if_neg (not_not_intro hp1), if_pos hq1]
        rw [hstep]
        refine ⟨?_, ?_, ?_, ?_⟩
        · rw [hrl, hqlinks]
        · intro M
          show balance (decAndQueueMasters q.2 (slaveLinks s d).reverse) M = balance s M
          have h1 := hrb M
          have h2 := hqb M
          rw [countMasters_reverse] at h1
          omega
        · intro X; rw [hrlk, hq, hqlk, hmlk]
        · intro X hX _
          rw [hrst, hq, hqst, hmst X hX]
    · -- some master failed to power on: poweronMasters already rolled back
      have hstep : genpd_poweron_locked_aux env pon s d = (p.1, p.2) := by
        simp only [genpd_poweron_locked_aux, ← hp]
        rw [if_neg hguard, if_pos hp1]
      rw [hstep]
      exact ⟨hml, hmbe hp1, hmlk, fun X hX _ => hmst X hX⟩

theorem genpd_poweron_ok (env : Env) : ∀ fuel, PonOK (genpd_poweron env fuel) := by
  intro fuel
  induction fuel with
  | zero =>
    intro s d _ _
    exact ⟨rfl, fun _ => rfl, fun _ => rfl, fun _ _ => rfl⟩
  | succ f ih =>
    intro s d hnd hb
    by_cases hl : (s.doms d).locked = true
    · have hstep : genpd_poweron env (f + 1) s d = (-EDEADLK, s) := by
        simp only [genpd_poweron]; rw [if_pos hl]
      rw [hstep]
      exact ⟨rfl, fun _ => rfl, fun _ => rfl, fun _ _ => rfl⟩
    · have hlf : (s.doms d).locked = false := by
        revert hl; cases (s.doms d).locked <;> simp
      have h1nd : (lockDom s d).links.Nodup := by rw [lockDom_links]; exact hnd
      have h1b : ∀ M, 0 ≤ balance (lockDom s d) M := by
        intro M; rw [balance_lockDom]; exact hb M
      have hlk1 : ((lockDom s d).doms d).locked = true := by
        rw [lockDom_locked]; simp
      obtain ⟨hal, hab, halk, hast⟩ :=
        genpd_poweron_locked_aux_ok env (genpd_poweron env f) ih (lockDom s d) d h1nd h1b hlk1
      set p := genpd_poweron_locked_aux env (genpd_poweron env f) (lockDom s d) d with hp
      have hstep : genpd_poweron env (f + 1) s d = (p.1, unlockDom p.2 d) := by
        simp only [genpd_poweron, ← hp]
        rw [if_neg hl]
      rw [hstep]
      refine ⟨?_, ?_, ?_, ?_⟩
      · rw [unlockDom_links, hal, lockDom_links]
      · intro M; rw [balance_unlockDom, hab, balance_lockDom]
      · intro X
        rw [unlockDom_locked]
        by_cases hX : X = d
        · rw [if_pos hX, hX, hlf]
        · rw [if_neg hX, halk X, lockDom_locked, if_neg hX]
      · intro X hX
        have hXd : X ≠ d := fun h => by rw [h, hlf] at hX; exact Bool.noConfusion hX
        have hX1 : ((lockDom s d).doms X).locked = true := by
          rw [lockDom_locked, if_neg hXd]; exact hX
        rw [unlockDom_status, hast X hX1 hXd, lockDom_status]

theorem slaveLinks_congr (s s' : State) (h : s'.links = s.links) (d : Nat) :
    slaveLinks s' d = slaveLinks s d := by
  unfold slaveLinks; rw [h]

theorem decAndQueueMasters_links_any : ∀ (L : List Link) (s : State),
    (decAndQueueMasters s L).links = s.links := by
  intro L
  induction L with
  | nil => intro s; rfl
  | cons l rest ih =>
    intro s
    show (decAndQueueMasters _ rest).links = s.links
    rw [ih, queueWork_links, dec_links]

theorem decAndQueueMasters_status_any : ∀ (L : List Link) (s : State) (X : Nat),
    ((decAndQueueMasters s L).doms X).status = (s.doms X).status := by
  intro L
  induction L with
  | nil => intro s X; rfl
  | cons l rest ih =>
    intro s X
    show ((decAndQueueMasters _ rest).doms X).status = (s.doms X).status
    rw [ih, queueWork_doms, dec_status]

theorem decAndQueueMasters_devs_any : ∀ (L : List Link) (s : State),
    (decAndQueueMasters s L).devs = s.devs := by
  intro L
  induction L with
  | nil => intro s; rfl
  | cons l rest ih =>
    intro s
    show (decAndQueueMasters _ rest).devs = s.devs
    rw [ih, queueWork_devs]; rfl

/-- Success analysis of genpd_poweroff: a zero return means either a refusal
    with the state untouched (already off, or system sleep in progress) or a
    completed power-down leaving the domain off. -/
theorem genpd_poweroff_zero_cases (env : Env) (s : State) (d : Nat) (a : Bool)
    (h0 : (genpd_poweroff env s d a).1 = 0) :
    ((genpd_poweroff env s d a).2 = s
        ∧ ((s.doms d).status = GpdStatus.power_off ∨ 0 < (s.doms d).prepared_count))
    ∨ ((genpd_poweroff env s d a).2.doms d).status = GpdStatus.power_off := by
  by_cases h1 : (s.doms d).status = GpdStatus.power_off ∨ 0 < (s.doms d).prepared_count
  · left
    constructor
    · simp only [genpd_poweroff]; rw [if_pos h1]
    · exact h1
  · right
    revert h0
    simp only [genpd_poweroff]
    rw [if_neg h1]
    by_cases h2 : 0 < (s.doms d).sd_count
    · rw [if_pos h2]; intro h0; exact absurd h0 (by norm_num [EBUSY])
    · rw [if_neg h2]
      rcases hscan : poweroffDevScan env s (s.doms d).dev_list with _ | ns
      · intro h0; exact absurd h0 (by norm_num [EBUSY])
      · simp only
        by_cases h3 : 1 < ns ∨ (ns = 1 ∧ a = true)
        · rw [if_pos h3]; intro h0; exact absurd h0 (by norm_num [EBUSY])
        · rw [if_neg h3]
          by_cases h4 : env.has_power_down_ok d = true ∧ env.power_down_ok d = false
          · rw [if_pos h4]; intro h0; exact absurd h0 (by norm_num [EAGAIN])
          · rw [if_neg h4]
            rcases hcb : env.power_off_cb d with _ | ret
            · simp only
              rw [if_neg (not_not_intro rfl)]
              intro _
              rw [decAndQueueMasters_status_any]
              have : ∀ X, ((updDom s d fun t =>
                  { t with status := GpdStatus.power_off }).doms X)
                  = if X = d then { s.doms d with status := GpdStatus.power_off }
                    else s.doms X := by
                intro X; by_cases hX : X = d <;> simp [updDom, hX]
              rw [this d]; simp
            · simp only
              rw [if_neg h2]
              set q := genpd_power_off env s d true with hq
              by_cases h5 : q.1 ≠ 0
              · rw [if_pos h5]
                simp only [if_pos h5]
                intro h0; exact absurd h0 h5
              · rw [if_neg h5]
                simp only [if_neg h5]
                rw [if_neg (not_not_intro rfl)]
                intro _
                rw [decAndQueueMasters_status_any]
                have : ((updDom q.2 d fun t =>
                    { t with status := GpdStatus.power_off }).doms d)
                    = { q.2.doms d with status := GpdStatus.power_off } := by
                  simp [updDom]
                rw [this]

theorem poweroff_success_inv (s0 : State) (d : Nat)
    (hnd : s0.links.Nodup) (hb : ∀ M, balance s0 M = 0)
    (hact : (s0.doms d).status = GpdStatus.active) :
    (decAndQueueMasters (updDom s0 d fun t => { t with status := GpdStatus.power_off })
        (slaveLinks (updDom s0 d fun t => { t with status := GpdStatus.power_off }) d)).links
      = s0.links
    ∧ GenpdInv (decAndQueueMasters
        (updDom s0 d fun t => { t with status := GpdStatus.power_off })
        (slaveLinks (updDom s0 d fun t => { t with status := GpdStatus.power_off }) d)) := by
  set s2 := updDom s0 d fun t => { t with status := GpdStatus.power_off } with hs2
  have h2links : s2.links = s0.links := updDom_links s0 d _
  have hsl : slaveLinks s2 d = slaveLinks s0 d := slaveLinks_congr s0 s2 h2links d
  have hstf : statusMap s2 = fun x => if x = d then GpdStatus.power_off else statusMap s0 x := by
    funext x; by_cases hx : x = d <;> simp [hs2, statusMap, updDom, hx]
  have h2bal : ∀ M, balance s2 M = (countMasters (slaveLinks s0 d) M : Int) := by
    intro M
    have hsd : (s2.doms M).sd_count = (s0.doms M).sd_count :=
      updDom_sd_of s0 d (fun t => { t with status := GpdStatus.power_off }) (fun t => rfl) M
    have hca : countActiveSlaves s2 M
        + s0.links.countP (fun l => decide (l.master = M) && decide (l.slave = d))
        = countActiveSlaves s0 M := by
      unfold countActiveSlaves
      rw [h2links, hstf]
      exact countActive_override_off (statusMap s0) d hact s0.links M
    have hcm := countMasters_slaveLinks s0 d M
    have hbz := hb M
    unfold balance at *
    rw [hsd]
    push_cast at *
    omega
  have hpw : (slaveLinks s2 d).Pairwise fun a b => a.master ≠ b.master := by
    rw [hsl]; exact slaveLinks_masters_pairwise s0 d hnd
  have hge : ∀ l ∈ slaveLinks s2 d, 1 ≤ balance s2 l.master := by
    intro l hl
    rw [hsl] at hl
    have := countMasters_pos_of_mem (slaveLinks s0 d) l hl
    have := h2bal l.master
    omega
  obtain ⟨hrl, _, _, hrb⟩ := decAndQueueMasters_ok (slaveLinks s2 d) s2 hpw hge
  constructor
  · rw [hrl, h2links]
  · constructor
    · rw [hrl, h2links]; exact hnd
    · intro M
      rw [hrb M, h2bal M, hsl]
      omega

theorem genpd_poweroff_inv (env : Env) (s : State) (d : Nat) (a : Bool)
    (h : GenpdInv s) :
    (genpd_poweroff env s d a).2.links = s.links ∧ GenpdInv (genpd_poweroff env s d a).2 := by
  obtain ⟨hnd, hb⟩ := h
  by_cases h1 : (s.doms d).status = GpdStatus.power_off ∨ 0 < (s.doms d).prepared_count
  · have hstep : genpd_poweroff env s d a = (0, s) := by
      simp only [genpd_poweroff]; rw [if_pos h1]
    rw [hstep]; exact ⟨rfl, hnd, hb⟩
  · have hact : (s.doms d).status = GpdStatus.active := by
      rcases hx : (s.doms d).status
      · rfl
      · exact absurd (Or.inl hx) h1
    simp only [genpd_poweroff]
    rw [if_neg h1]
    by_cases h2 : 0 < (s.doms d).sd_count
    · rw [if_pos h2]; exact ⟨rfl, hnd, hb⟩
    · rw [if_neg h2]
      rcases hscan : poweroffDevScan env s (s.doms d).dev_list with _ | ns
      · exact ⟨rfl, hnd, hb⟩
      · simp only
        by_cases h3 : 1 < ns ∨ (ns = 1 ∧ a = true)
        · rw [if_pos h3]; exact ⟨rfl, hnd, hb⟩
        · rw [if_neg h3]
          by_cases h4 : env.has_power_down_ok d = true ∧ env.power_down_ok d = false
          · rw [if_pos h4]; exact ⟨rfl, hnd, hb⟩
          · rw [if_neg h4]
            rcases hcb : env.power_off_cb d with _ | ret
            · simp only
              rw [if_neg (not_not_intro rfl)]
              exact poweroff_success_inv s d hnd hb hact
            · simp only
              rw [if_neg h2]
              obtain ⟨hql, hqst, hqsd, _⟩ := genpd_power_off_topo env s d true
              set q := genpd_power_off env s d true with hq
              by_cases h5 : q.1 ≠ 0
              · rw [if_pos h5]
                simp only [if_pos h5]
                refine ⟨hql, ?_, ?_⟩
                · rw [hql]; exact hnd
                · intro M
                  rw [balance_eq_of s q.2 hql hqst M (hqsd M)]
                  exact hb M
              · rw [if_neg h5]
                simp only [if_neg h5]
                rw [if_neg (not_not_intro rfl)]
                have hqnd : q.2.links.Nodup := by rw [hql]; exact hnd
                have hqb : ∀ M, balance q.2 M = 0 := by
                  intro M; rw [balance_eq_of s q.2 hql hqst M (hqsd M)]; exact hb M
                have hqact : (q.2.doms d).status = GpdStatus.active := by
                  rw [hqst d]; exact hact
                obtain ⟨hfl, hfi⟩ := poweroff_success_inv q.2 d hqnd hqb hqact
                exact ⟨by rw [hfl, hql], hfi⟩

theorem removeLinkFirst_sublist (m sub : Nat) :
    ∀ (ls ls' : List Link), removeLinkFirst m sub ls = some ls' → ls'.Sublist ls := by
  intro ls
  induction ls with
  | nil => intro ls' h; exact absurd h (by simp [removeLinkFirst])
  | cons l rest ih =>
    intro ls' h
    by_cases hl : l.master = m ∧ l.slave = sub
    · have : ls' = rest := by
        simp only [removeLinkFirst, if_pos hl] at h
        exact (Option.some.injEq _ _ ▸ h).symm
      rw [this]
      exact List.sublist_cons_self l rest
    · simp only [removeLinkFirst, if_neg hl] at h
      rcases hrec : removeLinkFirst m sub rest with _ | ls''
      · rw [hrec] at h; exact Option.noConfusion h
      · rw [hrec] at h
        simp only [Option.map_some', Option.some.injEq] at h
        rw [← h]
        exact (ih ls'' hrec).cons₂ l

theorem removeLinkFirst_mem (m sub : Nat) :
    ∀ (ls ls' : List Link), removeLinkFirst m sub ls = some ls' → (⟨m, sub⟩ : Link) ∈ ls := by
  intro ls
  induction ls with
  | nil => intro ls' h; exact absurd h (by simp [removeLinkFirst])
  | cons l rest ih =>
    intro ls' h
    by_cases hl : l.master = m ∧ l.slave = sub
    · have : l = (⟨m, sub⟩ : Link) := by cases l; simp_all
      rw [this]; exact List.mem_cons_self _ _
    · simp only [removeLinkFirst, if_neg hl] at h
      rcases hrec : removeLinkFirst m sub rest with _ | ls''
      · rw [hrec] at h; exact Option.noConfusion h
      · exact List.mem_cons_of_mem l (ih ls'' hrec)

theorem removeLinkFirst_countP (m sub : Nat) :
    ∀ (ls ls' : List Link), removeLinkFirst m sub ls = some ls' →
    ∀ (p : Link → Bool),
      ls.countP p = ls'.countP p + (if p ⟨m, sub⟩ = true then 1 else 0) := by
  intro ls
  induction ls with
  | nil => intro ls' h; exact absurd h (by simp [removeLinkFirst])
  | cons l rest ih =>
    intro ls' h p
    by_cases hl : l.master = m ∧ l.slave = sub
    · have hrest : ls' = rest := by
        simp only [removeLinkFirst, if_pos hl] at h
        exact (Option.some.injEq _ _ ▸ h).symm
      have hlink : l = (⟨m, sub⟩ : Link) := by cases l; simp_all
      rw [hrest, List.countP_cons, hlink]
    · simp only [removeLinkFirst, if_neg hl] at h
      rcases hrec : removeLinkFirst m sub rest with _ | ls''
      · rw [hrec] at h; exact Option.noConfusion h
      · rw [hrec] at h
        simp only [Option.map_some', Option.some.injEq] at h
        rw [← h, List.countP_cons, List.countP_cons, ih ls'' hrec p]
        omega

theorem linkExists_false_not_mem (s : State) (m sub : Nat)
    (h : linkExists s m sub = false) : (⟨m, sub⟩ : Link) ∉ s.links := by
  intro hmem
  have : s.links.any (fun l => decide (l.master = m) && decide (l.slave = sub)) = true :=
    List.any_eq_true.mpr ⟨⟨m, sub⟩, hmem, by simp⟩
  rw [linkExists] at h
  rw [this] at h
  exact Bool.noConfusion h


theorem countActive_append_single (st : Nat → GpdStatus) (ls : List Link) (l0 : Link) (M : Nat) :
    countActive st (ls ++ [l0]) M
      = countActive st ls M
        + (if l0.master = M ∧ st l0.slave = GpdStatus.active then 1 else 0) := by
  unfold countActive
  rw [List.countP_append]
  by_cases h1 : l0.master = M <;> by_cases h2 : st l0.slave = GpdStatus.active <;>
    simp [List.countP_cons, h1, h2]

theorem pm_genpd_add_subdomain_inv (s : State) (m sub : Nat) (h : GenpdInv s) :
    GenpdInv (pm_genpd_add_subdomain s m sub).2 := by
  obtain ⟨hnd, hb⟩ := h
  by_cases h1 : m = sub
  · have hstep : pm_genpd_add_subdomain s m sub = (-EINVAL, s) := by
      simp only [pm_genpd_add_subdomain]; rw [if_pos h1]
    rw [hstep]; exact ⟨hnd, hb⟩
  · by_cases h2 : (s.doms m).status = GpdStatus.power_off
        ∧ (s.doms sub).status ≠ GpdStatus.power_off
    · have hstep : pm_genpd_add_subdomain s m sub = (-EINVAL, s) := by
        simp only [pm_genpd_add_subdomain]; rw [if_neg h1, if_pos h2]
      rw [hstep]; exact ⟨hnd, hb⟩
    · by_cases h3 : linkExists s m sub = true
      · have hstep : pm_genpd_add_subdomain s m sub = (-EINVAL, s) := by
          simp only [pm_genpd_add_subdomain]; rw [if_neg h1, if_neg h2, if_pos h3]
        rw [hstep]; exact ⟨hnd, hb⟩
      · have h3' : linkExists s m sub = false := by
          revert h3; cases linkExists s m sub <;> simp
        have h1nd : (s.links ++ [(⟨m, sub⟩ : Link)]).Nodup := by
          simp only [List.nodup_append]
          refine ⟨hnd, List.nodup_singleton _, ?_⟩
          intro a ha hb'
          have ha' : a = (⟨m, sub⟩ : Link) := by simpa using hb'
          rw [ha'] at ha
          exact linkExists_false_not_mem s m sub h3' ha
        have h1ca : ∀ M,
            countActiveSlaves { s with links := s.links ++ [(⟨m, sub⟩ : Link)] } M
            = countActiveSlaves s M
              + (if m = M ∧ (s.doms sub).status = GpdStatus.active then 1 else 0) := by
          intro M
          unfold countActiveSlaves
          have hstm : statusMap { s with links := s.links ++ [(⟨m, sub⟩ : Link)] }
              = statusMap s := rfl
          rw [hstm]
          exact countActive_append_single (statusMap s) s.links ⟨m, sub⟩ M
        by_cases h4 : (s.doms sub).status ≠ GpdStatus.power_off
        · simp only [pm_genpd_add_subdomain]
          rw [if_neg h1, if_neg h2, if_neg h3, if_pos h4]
          have hsubact : (s.doms sub).status = GpdStatus.active := by
            rcases hx : (s.doms sub).status
            · rfl
            · exact absurd hx h4
          show GenpdInv (genpd_sd_counter_inc
            { s with links := s.links ++ [(⟨m, sub⟩ : Link)] } m)
          refine ⟨?_, ?_⟩
          · rw [inc_links]; exact h1nd
          · intro M
            unfold balance
            rw [inc_sd,
              countActiveSlaves_eq_of { s with links := s.links ++ [(⟨m, sub⟩ : Link)] } _
                (inc_links _ m) (inc_status _ m) M,
              h1ca M]
            have hb' := hb M
            unfold balance at hb'
            by_cases hmm : M = m
            · rw [if_pos hmm, if_pos ⟨hmm.symm, hsubact⟩]
              push_cast
              omega
            · rw [if_neg hmm, if_neg (fun hx => hmm hx.1.symm)]
              push_cast
              omega
        · simp only [pm_genpd_add_subdomain]
          rw [if_neg h1, if_neg h2, if_neg h3, if_neg h4]
          have hsuboff : (s.doms sub).status = GpdStatus.power_off := by
            revert h4; rcases hx : (s.doms sub).status <;> simp
          show GenpdInv { s with links := s.links ++ [(⟨m, sub⟩ : Link)] }
          refine ⟨h1nd, ?_⟩
          intro M
          show ((s.doms M).sd_count : Int)
              - (countActiveSlaves { s with links := s.links ++ [(⟨m, sub⟩ : Link)] } M : Int)
              = 0
          rw [h1ca M]
          have hb' := hb M
          unfold balance at hb'
          rw [if_neg (fun hx => by
            rw [hsuboff] at hx
            exact GpdStatus.noConfusion hx.2)]
          push_cast
          omega

theorem pm_genpd_remove_subdomain_inv (s : State) (m sub : Nat) (h : GenpdInv s) :
    GenpdInv (pm_genpd_remove_subdomain s m sub).2 := by
  obtain ⟨hnd, hb⟩ := h
  by_cases h1 : masterLinks s sub ≠ [] ∨ (s.doms sub).device_count ≠ 0
  · have hstep : pm_genpd_remove_subdomain s m sub = (-EBUSY, s) := by
      simp only [pm_genpd_remove_subdomain]; rw [if_pos h1]
    rw [hstep]; exact ⟨hnd, hb⟩
  · rcases hrm : removeLinkFirst m sub s.links with _ | ls
    · have hstep : pm_genpd_remove_subdomain s m sub = (-EINVAL, s) := by
        simp only [pm_genpd_remove_subdomain]; rw [if_neg h1, hrm]
      rw [hstep]; exact ⟨hnd, hb⟩
    · have hsub : ls.Sublist s.links := removeLinkFirst_sublist m sub s.links ls hrm
      have hnd' : ls.Nodup := hnd.sublist hsub
      have hmem : (⟨m, sub⟩ : Link) ∈ s.links := removeLinkFirst_mem m sub s.links ls hrm
      have hca : ∀ M, countActiveSlaves s M
          = countActiveSlaves { s with links := ls } M
            + (if m = M ∧ (s.doms sub).status = GpdStatus.active then 1 else 0) := by
        intro M
        have hcp := removeLinkFirst_countP m sub s.links ls hrm
          (fun l => decide (l.master = M) && decide (statusMap s l.slave = GpdStatus.active))
        unfold countActiveSlaves countActive
        rw [hcp]
        by_cases hmm : m = M <;>
          by_cases hact : (s.doms sub).status = GpdStatus.active <;>
            simp [statusMap, hmm, hact]
      by_cases h4 : (s.doms sub).status ≠ GpdStatus.power_off
      · have hsubact : (s.doms sub).status = GpdStatus.active := by
          rcases hx : (s.doms sub).status
          · rfl
          · exact absurd hx h4
        have hsdpos : (({ s with links := ls } : State).doms m).sd_count ≠ 0 := by
          show (s.doms m).sd_count ≠ 0
          have hb' := hb m
          unfold balance at hb'
          have : 0 < countActiveSlaves s m := by
            unfold countActiveSlaves countActive
            refine List.countP_pos_iff.mpr ⟨⟨m, sub⟩, hmem, ?_⟩
            simp [statusMap, hsubact]
          omega
        simp only [pm_genpd_remove_subdomain]
        rw [if_neg h1, hrm]
        simp only
        rw [if_pos h4]
        show GenpdInv (genpd_sd_counter_dec { s with links := ls } m)
        refine ⟨?_, ?_⟩
        · rw [dec_links]; exact hnd'
        · intro M
          unfold balance
          rw [dec_sd _ _ _ hsdpos,
            countActiveSlaves_eq_of { s with links := ls } _ (dec_links _ m)
              (dec_status _ m) M]
          have hb' := hb M
          unfold balance at hb'
          have hcaM := hca M
          by_cases hmm : M = m
          · rw [if_pos hmm]
            rw [if_pos ⟨hmm.symm, hsubact⟩] at hcaM
            have hsd : (({ s with links := ls } : State).doms M).sd_count
                = (s.doms M).sd_count := rfl
            rw [hsd]
            push_cast at hcaM ⊢
            omega
          · rw [if_neg hmm]
            rw [if_neg (fun hx => hmm hx.1.symm)] at hcaM
            have hsd : (({ s with links := ls } : State).doms M).sd_count
                = (s.doms M).sd_count := rfl
            rw [hsd]
            push_cast at hcaM ⊢
            omega
      · have hsuboff : (s.doms sub).status = GpdStatus.power_off := by
          revert h4; rcases hx : (s.doms sub).status <;> simp
        simp only [pm_genpd_remove_subdomain]
        rw [if_neg h1, hrm]
        simp only
        rw [if_neg h4]
        show GenpdInv { s with links := ls }
        refine ⟨hnd', ?_⟩
        intro M
        have hb' := hb M
        unfold balance at hb' ⊢
        have hcaM := hca M
        rw [if_neg (fun hx => by
          rw [hsuboff] at hx
          exact GpdStatus.noConfusion hx.2)] at hcaM
        have hsd : (({ s with links := ls } : State).doms M).sd_count
            = (s.doms M).sd_count := rfl
        rw [hsd]
        push_cast at hcaM ⊢
        omega

theorem genpdInv_of_topo (s s' : State) (hl : s'.links = s.links)
    (hs : ∀ X, (s'.doms X).status = (s.doms X).status)
    (hsd : ∀ X, (s'.doms X).sd_count = (s.doms X).sd_count)
    (h : GenpdInv s) : GenpdInv s' := by
  obtain ⟨hnd, hb⟩ := h
  refine ⟨by rw [hl]; exact hnd, ?_⟩
  intro M
  rw [balance_eq_of s s' hl hs M (hsd M)]
  exact hb M

theorem genpd_poweron_inv (env : Env) (fuel : Nat) (s : State) (d : Nat)
    (h : GenpdInv s) : GenpdInv (genpd_poweron env fuel s d).2 := by
  obtain ⟨hnd, hb⟩ := h
  obtain ⟨hl, hbal, _, _⟩ := genpd_poweron_ok env fuel s d hnd (fun M => (hb M).ge)
  refine ⟨by rw [hl]; exact hnd, ?_⟩
  intro M
  rw [hbal M]
  exact hb M

theorem genpd_poweroff_work_fn_inv (env : Env) (s : State) (d : Nat)
    (h : GenpdInv s) : GenpdInv (genpd_power_off_work_fn env s d) := by
  unfold genpd_power_off_work_fn
  have h0 : GenpdInv { s with workQueue := s.workQueue.erase d } := by
    obtain ⟨hnd, hb⟩ := h
    exact ⟨hnd, hb⟩
  exact (genpd_poweroff_inv env _ d true h0).2

theorem pm_genpd_prepare_topo (env : Env) (s : State) (dv : Nat) :
    (pm_genpd_prepare env s dv).2.links = s.links
    ∧ (∀ X, ((pm_genpd_prepare env s dv).2.doms X).status = (s.doms X).status)
    ∧ (∀ X, ((pm_genpd_prepare env s dv).2.doms X).sd_count = (s.doms X).sd_count) := by
  unfold pm_genpd_prepare
  rcases (s.devs dv).pm_domain with _ | d
  · exact ⟨rfl, fun _ => rfl, fun _ => rfl⟩
  · simp only
    split_ifs
    all_goals
      refine ⟨rfl, ?_, ?_⟩ <;> intro X <;> by_cases hX : X = d <;>
        simp [addEvent, updDom, hX]

theorem pm_genpd_prepare_inv (env : Env) (s : State) (dv : Nat)
    (h : GenpdInv s) : GenpdInv (pm_genpd_prepare env s dv).2 := by
  obtain ⟨h1, h2, h3⟩ := pm_genpd_prepare_topo env s dv
  exact genpdInv_of_topo s _ h1 h2 h3 h

theorem pm_genpd_add_device_topo (env : Env) (s : State) (d dv : Nat)
    (td : Option (Int × Int)) :
    (pm_genpd_add_device env s d dv td).2.links = s.links
    ∧ (∀ X, ((pm_genpd_add_device env s d dv td).2.doms X).status = (s.doms X).status)
    ∧ (∀ X, ((pm_genpd_add_device env s d dv td).2.doms X).sd_count = (s.doms X).sd_count) := by
  have key : ∀ X, (pm_genpd_add_device env s d dv td).2.links = s.links
      ∧ ((pm_genpd_add_device env s d dv td).2.doms X).status = (s.doms X).status
      ∧ ((pm_genpd_add_device env s d dv td).2.doms X).sd_count = (s.doms X).sd_count := by
    intro X
    rcases td with _ | tdp
    all_goals
      unfold pm_genpd_add_device
      split
      · exact ⟨rfl, rfl, rfl⟩
      · dsimp only
        split
        · exact ⟨rfl, rfl, rfl⟩
        · split
          · exact ⟨rfl, rfl, rfl⟩
          · refine ⟨rfl, ?_, ?_⟩ <;> by_cases hX : X = d <;>
              simp [addEvent, updDom, updDev, hX]
  exact ⟨(key 0).1, fun X => (key X).2.1, fun X => (key X).2.2⟩

theorem pm_genpd_add_device_inv (env : Env) (s : State) (d dv : Nat)
    (td : Option (Int × Int)) (h : GenpdInv s) :
    GenpdInv (pm_genpd_add_device env s d dv td).2 := by
  obtain ⟨h1, h2, h3⟩ := pm_genpd_add_device_topo env s d dv td
  exact genpdInv_of_topo s _ h1 h2 h3 h

theorem pm_genpd_remove_device_topo (env : Env) (s : State) (d dv : Nat) :
    (pm_genpd_remove_device env s d dv).2.links = s.links
    ∧ (∀ X, ((pm_genpd_remove_device env s d dv).2.doms X).status = (s.doms X).status)
    ∧ (∀ X, ((pm_genpd_remove_device env s d dv).2.doms X).sd_count = (s.doms X).sd_count) := by
  have key : ∀ X, (pm_genpd_remove_device env s d dv).2.links = s.links
      ∧ ((pm_genpd_remove_device env s d dv).2.doms X).status = (s.doms X).status
      ∧ ((pm_genpd_remove_device env s d dv).2.doms X).sd_count = (s.doms X).sd_count := by
    intro X
    unfold pm_genpd_remove_device
    split
    · exact ⟨rfl, rfl, rfl⟩
    · dsimp only
      split
      · exact ⟨rfl, rfl, rfl⟩
      · refine ⟨rfl, ?_, ?_⟩ <;> by_cases hX : X = d <;>
          simp [addEvent, updDom, updDev, hX]
  exact ⟨(key 0).1, fun X => (key X).2.1, fun X => (key X).2.2⟩

theorem pm_genpd_remove_device_inv (env : Env) (s : State) (d dv : Nat)
    (h : GenpdInv s) : GenpdInv (pm_genpd_remove_device env s d dv).2 := by
  obtain ⟨h1, h2, h3⟩ := pm_genpd_remove_device_topo env s d dv
  exact genpdInv_of_topo s _ h1 h2 h3 h

theorem pm_genpd_runtime_suspend_inv (env : Env) (s : State) (dv : Nat)
    (h : GenpdInv s) : GenpdInv (pm_genpd_runtime_suspend env s dv).2 := by
  unfold pm_genpd_runtime_suspend
  rcases (s.devs dv).pm_domain with _ | d
  · exact h
  · simp only
    split_ifs
    all_goals first
      | exact h
      | (apply genpdInv_of_topo s _ rfl (fun _ => rfl) (fun _ => rfl) h)
      | (refine genpdInv_of_topo s _ rfl ?_ ?_ h <;> intro X <;> by_cases hX : X = d <;>
          simp [addEvent, updDom, updDev, hX])
      | (apply (genpd_poweroff_inv env _ d false ?_).2
         first
          | exact h
          | (refine genpdInv_of_topo s _ rfl ?_ ?_ h <;> intro X <;> by_cases hX : X = d <;>
              simp [addEvent, updDom, updDev, hX]))

theorem pm_genpd_runtime_resume_inv (env : Env) (fuel : Nat) (s : State) (dv : Nat)
    (h : GenpdInv s) : GenpdInv (pm_genpd_runtime_resume env fuel s dv).2 := by
  unfold pm_genpd_runtime_resume
  rcases (s.devs dv).pm_domain with _ | d
  · exact h
  · dsimp only
    split
    · exact genpdInv_of_topo s _ rfl (fun _ => rfl) (fun _ => rfl) h
    · have hpinv : GenpdInv (genpd_poweron env fuel s d).2 := genpd_poweron_inv env fuel s d h
      split
      · exact hpinv
      · split
        · refine genpdInv_of_topo (genpd_poweron env fuel s d).2 _ rfl ?_ ?_ hpinv <;>
            intro X <;> by_cases hX : X = d <;>
              simp [addEvent, updDom, updDev, hX]
        · exact genpdInv_of_topo (genpd_poweron env fuel s d).2 _ rfl (fun _ => rfl)
            (fun _ => rfl) hpinv

theorem applyTopOp_inv (env : Env) (s : State) (op : TopOp) (h : GenpdInv s) :
    GenpdInv (applyTopOp env s op) := by
  cases op with
  | addSub m sub => exact pm_genpd_add_subdomain_inv s m sub h
  | removeSub m sub => exact pm_genpd_remove_subdomain_inv s m sub h
  | powerOn fuel d => exact genpd_poweron_inv env fuel s d h
  | powerOff d a => exact (genpd_poweroff_inv env s d a h).2

theorem applyOp_inv (env : Env) (s : State) (op : Op) (h : GenpdInv s) :
    GenpdInv (applyOp env s op) := by
  cases op with
  | topo t => exact applyTopOp_inv env s t h
  | runtimeSuspend dv =>
    have h1 := pm_genpd_runtime_suspend_inv env s dv h
    show GenpdInv (if (pm_genpd_runtime_suspend env s dv).1 = 0
        then updDev (pm_genpd_runtime_suspend env s dv).2 dv
          (fun t => { t with runtime_suspended := true })
        else (pm_genpd_runtime_suspend env s dv).2)
    split
    · exact genpdInv_of_topo (pm_genpd_runtime_suspend env s dv).2 _ rfl (fun _ => rfl)
        (fun _ => rfl) h1
    · exact h1
  | runtimeResume fuel dv =>
    have h1 := pm_genpd_runtime_resume_inv env fuel s dv h
    show GenpdInv (if (pm_genpd_runtime_resume env fuel s dv).1 = 0
        then updDev (pm_genpd_runtime_resume env fuel s dv).2 dv
          (fun t => { t with runtime_suspended := false })
        else (pm_genpd_runtime_resume env fuel s dv).2)
    split
    · exact genpdInv_of_topo (pm_genpd_runtime_resume env fuel s dv).2 _ rfl (fun _ => rfl)
        (fun _ => rfl) h1
    · exact h1
  | prepareDev dv => exact pm_genpd_prepare_inv env s dv h
  | addDevice d dv td => exact pm_genpd_add_device_inv env s d dv td h
  | removeDevice d dv => exact pm_genpd_remove_device_inv env s d dv h
  | runWork d => exact genpd_poweroff_work_fn_inv env s d h

theorem foldl_applyTopOp_inv (env : Env) :
    ∀ (ops : List TopOp) (s : State), GenpdInv s →
      GenpdInv (ops.foldl (applyTopOp env) s) := by
  intro ops
  induction ops with
  | nil => intro s h; exact h
  | cons op rest ih =>
    intro s h
    exact ih (applyTopOp env s op) (applyTopOp_inv env s op h)

theorem foldl_applyOp_inv (env : Env) :
    ∀ (ops : List Op) (s : State), GenpdInv s →
      GenpdInv (ops.foldl (applyOp env) s) := by
  intro ops
  induction ops with
  | nil => intro s h; exact h
  | cons op rest ih =>
    intro s h
    exact ih (applyOp env s op) (applyOp_inv env s op h)

theorem initState_inv (is_off : Nat → Bool) : GenpdInv (initState is_off) := by
  refine ⟨List.nodup_nil, ?_⟩
  intro M
  simp [balance, initState, initDom, countActiveSlaves, countActive]

/-! Characterisation of the genpd_poweroff device walk. -/

theorem poweroffDevScan_none_iff (env : Env) (s : State) :
    ∀ L : List Nat, poweroffDevScan env s L = none ↔ L.any env.qos_flags_set = true := by
  intro L
  induction L with
  | nil => simp [poweroffDevScan]
  | cons dv rest ih =>
    by_cases hq : env.qos_flags_set dv = true
    · simp [poweroffDevScan, hq]
    · have hq' : env.qos_flags_set dv = false := by
        revert hq; cases env.qos_flags_set dv <;> simp
      constructor
      · intro h
        simp only [poweroffDevScan, if_neg hq] at h
        rcases hrec : poweroffDevScan env s rest with _ | n
        · simp [List.any_cons, hq', ih.mp hrec]
        · rw [hrec] at h; exact Option.noConfusion h
      · intro h
        simp only [List.any_cons, hq', Bool.false_or] at h
        simp only [poweroffDevScan, if_neg hq]
        rw [ih.mpr h]

theorem poweroffDevScan_no_qos (env : Env) (s : State) :
    ∀ L : List Nat, L.any env.qos_flags_set = false →
      poweroffDevScan env s L = some (notSuspendedCount env s L) := by
  intro L
  induction L with
  | nil => intro _; rfl
  | cons dv rest ih =>
    intro h
    simp only [List.any_cons, Bool.or_eq_false_iff] at h
    simp only [poweroffDevScan,
      if_neg (show ¬ env.qos_flags_set dv = true by rw [h.1]; exact Bool.false_ne_true)]
    rw [ih h.2]
    unfold notSuspendedCount
    rw [List.countP_cons]
    by_cases hns : (s.devs dv).runtime_suspended = false ∨ env.irq_safe dv = true
    · rw [if_pos hns]
      rcases hns with h1 | h1 <;> simp [h1]
    · rw [if_neg hns]
      push_neg at hns
      have h1 : (s.devs dv).runtime_suspended = true := by
        revert hns; cases (s.devs dv).runtime_suspended <;> simp
      have h2 : env.irq_safe dv = false := by
        rcases hx : env.irq_safe dv
        · rfl
        · exact absurd hx hns.2
      simp [h1, h2]

/-- C3: genpd_poweroff returns 0 and leaves the state unchanged when the
    domain is already off or a system sleep is in progress; it returns -EBUSY
    (unchanged state) when the subdomain counter is positive, when any
    attached device carries the NO_POWER_OFF / REMOTE_WAKEUP PM-QoS flags,
    when more than one device is not runtime-suspended (or IRQ-safe), or when
    exactly one such device exists and the call is asynchronous. -/
theorem C3_poweroff_refusals (env : Env) (s : State) (d : Nat) (a : Bool) :
    ((s.doms d).status = GpdStatus.power_off ∨ 0 < (s.doms d).prepared_count →
      genpd_poweroff env s d a = (0, s))
    ∧ (¬((s.doms d).status = GpdStatus.power_off ∨ 0 < (s.doms d).prepared_count) →
      0 < (s.doms d).sd_count →
      genpd_poweroff env s d a = (-EBUSY, s))
    ∧ (¬((s.doms d).status = GpdStatus.power_off ∨ 0 < (s.doms d).prepared_count) →
      ¬ 0 < (s.doms d).sd_count →
      (s.doms d).dev_list.any env.qos_flags_set = true →
      genpd_poweroff env s d a = (-EBUSY, s))
    ∧ (¬((s.doms d).status = GpdStatus.power_off ∨ 0 < (s.doms d).prepared_count) →
      ¬ 0 < (s.doms d).sd_count →
      (s.doms d).dev_list.any env.qos_flags_set = false →
      (1 < notSuspendedCount env s (s.doms d).dev_list
        ∨ (notSuspendedCount env s (s.doms d).dev_list = 1 ∧ a = true)) →
      genpd_poweroff env s d a = (-EBUSY, s)) := by
  refine ⟨?_, ?_, ?_, ?_⟩
  · intro h1
    simp only [genpd_poweroff]; rw [if_pos h1]
  · intro h1 h2
    simp only [genpd_poweroff]; rw [if_neg h1, if_pos h2]
  · intro h1 h2 hq
    simp only [genpd_poweroff]
    rw [if_neg h1, if_neg h2, (poweroffDevScan_none_iff env s _).mpr hq]
  · intro h1 h2 hq hns
    simp only [genpd_poweroff]
    rw [if_neg h1, if_neg h2, poweroffDevScan_no_qos env s _ hq]
    simp only
    rw [if_pos hns]

/-- Witness instances for the four refusal modes of C3_poweroff_refusals. -/
theorem C3_poweroff_refusals_witness :
    genpd_poweroff baseEnv (uniformState (initDom true) (fun _ => initDev)) 0 false
      = (0, uniformState (initDom true) (fun _ => initDev))
    ∧ genpd_poweroff baseEnv
        (uniformState { initDom false with sd_count := 1 } (fun _ => initDev)) 0 false
      = (-EBUSY, uniformState { initDom false with sd_count := 1 } (fun _ => initDev))
    ∧ genpd_poweroff { baseEnv with qos_flags_set := fun _ => true }
        (uniformState { initDom false with dev_list := [7] } (fun _ => initDev)) 0 false
      = (-EBUSY, uniformState { initDom false with dev_list := [7] } (fun _ => initDev))
    ∧ genpd_poweroff baseEnv
        (uniformState { initDom false with dev_list := [3, 4] } (fun _ => initDev)) 0 false
      = (-EBUSY, uniformState { initDom false with dev_list := [3, 4] } (fun _ => initDev)) :=
  ⟨(C3_poweroff_refusals baseEnv (uniformState (initDom true) (fun _ => initDev)) 0
      false).1 (Or.inl rfl),
   (C3_poweroff_refusals baseEnv
      (uniformState { initDom false with sd_count := 1 } (fun _ => initDev)) 0 false).2.1
      (by decide) (by decide),
   (C3_poweroff_refusals { baseEnv with qos_flags_set := fun _ => true }
      (uniformState { initDom false with dev_list := [7] } (fun _ => initDev)) 0 false).2.2.1
      (by decide) (by decide) (by decide),
   (C3_poweroff_refusals baseEnv
      (uniformState { initDom false with dev_list := [3, 4] } (fun _ => initDev)) 0
      false).2.2.2 (by decide) (by decide) (by decide) (by decide)⟩

/-- C5: add_subdomain rejects a self-edge, an off-master/on-subdomain pair,
    and a duplicate link, each with -EINVAL and an unchanged state; on
    success it appends the link to both sides and bumps the master's
    subdomain counter exactly when the subdomain is not off. -/
theorem C5_add_subdomain (s : State) (m sub : Nat) :
    (m = sub → pm_genpd_add_subdomain s m sub = (-EINVAL, s))
    ∧ ((s.doms m).status = GpdStatus.power_off
        ∧ (s.doms sub).status ≠ GpdStatus.power_off →
      pm_genpd_add_subdomain s m sub = (-EINVAL, s))
    ∧ (linkExists s m sub = true → pm_genpd_add_subdomain s m sub = (-EINVAL, s))
    ∧ (m ≠ sub →
      ¬((s.doms m).status = GpdStatus.power_off
        ∧ (s.doms sub).status ≠ GpdStatus.power_off) →
      linkExists s m sub = false →
      (pm_genpd_add_subdomain s m sub).1 = 0
      ∧ masterLinks (pm_genpd_add_subdomain s m sub).2 m
          = masterLinks s m ++ [⟨m, sub⟩]
      ∧ slaveLinks (pm_genpd_add_subdomain s m sub).2 sub
          = slaveLinks s sub ++ [⟨m, sub⟩]
      ∧ ((pm_genpd_add_subdomain s m sub).2.doms m).sd_count
          = (s.doms m).sd_count
            + (if (s.doms sub).status ≠ GpdStatus.power_off then 1 else 0)) := by
  refine ⟨?_, ?_, ?_, ?_⟩
  · intro h1
    simp only [pm_genpd_add_subdomain]; rw [if_pos h1]
  · intro h2
    by_cases h1 : m = sub
    · simp only [pm_genpd_add_subdomain]; rw [if_pos h1]
    · simp only [pm_genpd_add_subdomain]; rw [if_neg h1, if_pos h2]
  · intro h3
    by_cases h1 : m = sub
    · simp only [pm_genpd_add_subdomain]; rw [if_pos h1]
    · by_cases h2 : (s.doms m).status = GpdStatus.power_off
          ∧ (s.doms sub).status ≠ GpdStatus.power_off
      · simp only [pm_genpd_add_subdomain]; rw [if_neg h1, if_pos h2]
      · simp only [pm_genpd_add_subdomain]; rw [if_neg h1, if_neg h2, if_pos h3]
  · intro h1 h2 h3
    have h3' : ¬ linkExists s m sub = true := by rw [h3]; exact Bool.false_ne_true
    have hml : ∀ s' : State, s'.links = s.links ++ [(⟨m, sub⟩ : Link)] →
        masterLinks s' m = masterLinks s m ++ [⟨m, sub⟩] := by
      intro s' hl
      unfold masterLinks
      rw [hl, List.filter_append]
      simp
    have hsl : ∀ s' : State, s'.links = s.links ++ [(⟨m, sub⟩ : Link)] →
        slaveLinks s' sub = slaveLinks s sub ++ [⟨m, sub⟩] := by
      intro s' hl
      unfold slaveLinks
      rw [hl, List.filter_append]
      simp
    by_cases h4 : (s.doms sub).status ≠ GpdStatus.power_off
    · have hstep : pm_genpd_add_subdomain s m sub
          = (0, genpd_sd_counter_inc { s with links := s.links ++ [⟨m, sub⟩] } m) := by
        simp only [pm_genpd_add_subdomain]
        rw [if_neg h1, if_neg h2, if_neg h3', if_pos h4]
      rw [hstep]
      refine ⟨rfl, ?_, ?_, ?_⟩
      · exact hml _ (by rw [inc_links])
      · exact hsl _ (by rw [inc_links])
      · rw [inc_sd, if_pos rfl, if_pos h4]
    · have hstep : pm_genpd_add_subdomain s m sub
          = (0, { s with links := s.links ++ [⟨m, sub⟩] }) := by
        simp only [pm_genpd_add_subdomain]
        rw [if_neg h1, if_neg h2, if_neg h3', if_neg h4]
      rw [hstep]
      refine ⟨rfl, hml _ rfl, hsl _ rfl, ?_⟩
      rw [if_neg h4]
      show (s.doms m).sd_count = (s.doms m).sd_count + 0
      omega

/-- Witness instances for C5_add_subdomain: the self-edge refusal, the
    off-master/on-subdomain refusal, the duplicate refusal, and a successful
    insertion between two off domains. -/
theorem C5_add_subdomain_witness :
    pm_genpd_add_subdomain (uniformState (initDom true) (fun _ => initDev)) 0 0
      = (-EINVAL, uniformState (initDom true) (fun _ => initDev))
    ∧ pm_genpd_add_subdomain
        { uniformState (initDom true) (fun _ => initDev) with
          doms := fun x => if x = 0 then initDom true else initDom false } 0 1
      = (-EINVAL, { uniformState (initDom true) (fun _ => initDev) with
          doms := fun x => if x = 0 then initDom true else initDom false })
    ∧ pm_genpd_add_subdomain
        { uniformState (initDom true) (fun _ => initDev) with links := [⟨0, 1⟩] } 0 1
      = (-EINVAL, { uniformState (initDom true) (fun _ => initDev) with links := [⟨0, 1⟩] })
    ∧ ((pm_genpd_add_subdomain (uniformState (initDom true) (fun _ => initDev)) 0 1).1 = 0
      ∧ masterLinks
          (pm_genpd_add_subdomain (uniformState (initDom true) (fun _ => initDev)) 0 1).2 0
          = masterLinks (uniformState (initDom true) (fun _ => initDev)) 0 ++ [⟨0, 1⟩]
      ∧ slaveLinks
          (pm_genpd_add_subdomain (uniformState (initDom true) (fun _ => initDev)) 0 1).2 1
          = slaveLinks (uniformState (initDom true) (fun _ => initDev)) 1 ++ [⟨0, 1⟩]
      ∧ (((pm_genpd_add_subdomain (uniformState (initDom true) (fun _ => initDev)) 0 1).2.doms
            0).sd_count
          = ((uniformState (initDom true) (fun _ => initDev)).doms 0).sd_count
            + (if ((uniformState (initDom true) (fun _ => initDev)).doms 1).status
                ≠ GpdStatus.power_off then 1 else 0))) :=
  ⟨(C5_add_subdomain (uniformState (initDom true) (fun _ => initDev)) 0 0).1 rfl,
   (C5_add_subdomain _ 0 1).2.1 (by decide),
   (C5_add_subdomain _ 0 1).2.2.1 (by decide),
   (C5_add_subdomain (uniformState (initDom true) (fun _ => initDev)) 0 1).2.2.2
     (by decide) (by decide) (by decide)⟩

/-- C7: when save_state succeeds and stop fails, runtime_suspend invokes
    restore_state, returns exactly the stop error, and does not attempt a
    domain power-off (domains and work queue untouched). -/
theorem C7_stop_failure_rollback (env : Env) (s : State) (dv d : Nat) (e : Int)
    (hdom : (s.devs dv).pm_domain = some d)
    (hgov : ¬(env.runtime_pm_enabled dv = true ∧ env.has_stop_ok d = true
        ∧ env.stop_ok d dv = false))
    (hsave : env.save_state_ret d dv = 0)
    (hstop : env.stop_ret d dv = e) (he : e ≠ 0) :
    pm_genpd_runtime_suspend env s dv
      = (e, addEvent (addEvent (addEvent s (.saveState dv)) (.stopDev dv)) (.restoreState dv))
    ∧ (pm_genpd_runtime_suspend env s dv).2.doms = s.doms
    ∧ (pm_genpd_runtime_suspend env s dv).2.workQueue = s.workQueue
    ∧ (pm_genpd_runtime_suspend env s dv).2.trace
      = s.trace ++ [.saveState dv, .stopDev dv, .restoreState dv] := by
  have hstep : pm_genpd_runtime_suspend env s dv
      = (e, addEvent (addEvent (addEvent s (.saveState dv)) (.stopDev dv))
          (.restoreState dv)) := by
    unfold pm_genpd_runtime_suspend
    rw [hdom]
    dsimp only
    rw [if_neg hgov, if_neg (show ¬ env.save_state_ret d dv ≠ 0 from not_not_intro hsave),
      if_pos (show env.stop_ret d dv ≠ 0 by rw [hstop]; exact he), hstop]
  refine ⟨hstep, ?_, ?_, ?_⟩
  · rw [hstep]; rfl
  · rw [hstep]; rfl
  · rw [hstep]
    show ((s.trace ++ [Event.saveState dv]) ++ [Event.stopDev dv]) ++ [Event.restoreState dv]
      = s.trace ++ [Event.saveState dv, Event.stopDev dv, Event.restoreState dv]
    simp

/-- Witness instance for C7_stop_failure_rollback: stop fails with -5 on a
    device of an active domain. -/
theorem C7_stop_failure_rollback_witness :
    pm_genpd_runtime_suspend { baseEnv with stop_ret := fun _ _ => -5 }
        (uniformState (initDom false) (fun _ => { initDev with pm_domain := some 0 })) 3
      = (-5, addEvent (addEvent (addEvent
          (uniformState (initDom false) (fun _ => { initDev with pm_domain := some 0 }))
          (.saveState 3)) (.stopDev 3)) (.restoreState 3)) :=
  (C7_stop_failure_rollback { baseEnv with stop_ret := fun _ _ => -5 }
    (uniformState (initDom false) (fun _ => { initDev with pm_domain := some 0 })) 3 0 (-5)
    rfl (by decide) rfl rfl (by decide)).1

/-- C10: a non-zero, non-BUSY error from the power_off callback still flows
    through the latency measurement (raising power_off_latency_ns and
    setting max_off_time_changed when exceeded) before being returned, a
    -EBUSY veto leaves the statistics untouched, and genpd_power_on returns
    any callback error immediately without touching power_on_latency_ns. -/
theorem C10_latency_asymmetry (env : Env) (s : State) (d : Nat) (e : Int) :
    (env.power_off_cb d = some e → e ≠ -EBUSY →
      (s.doms d).power_off_latency_ns < env.elapsed_off d →
      genpd_power_off env s d true
        = (e, updDom (addEvent s (.powerOffCb d)) d fun t =>
            { t with power_off_latency_ns := env.elapsed_off d,
                     max_off_time_changed := true }))
    ∧ (env.power_off_cb d = some (-EBUSY) →
      genpd_power_off env s d true = (-EBUSY, addEvent s (.powerOffCb d)))
    ∧ (env.power_on_cb d = some e → e ≠ 0 →
      genpd_power_on env s d true = (e, addEvent s (.powerOnCb d))) := by
  refine ⟨?_, ?_, ?_⟩
  · intro hcb hne hlat
    unfold genpd_power_off
    rw [hcb]
    dsimp only
    rw [if_neg (show ¬ (true = false) from fun htf => Bool.noConfusion htf), if_neg hne,
      if_neg (show ¬ env.elapsed_off d
          ≤ ((addEvent s (.powerOffCb d)).doms d).power_off_latency_ns by
        show ¬ env.elapsed_off d ≤ (s.doms d).power_off_latency_ns
        omega)]
  · intro hcb
    unfold genpd_power_off
    rw [hcb]
    dsimp only
    rw [if_neg (show ¬ (true = false) from fun htf => Bool.noConfusion htf), if_pos rfl]
  · intro hcb he
    unfold genpd_power_on
    rw [hcb]
    dsimp only
    rw [if_neg (show ¬ (true = false) from fun htf => Bool.noConfusion htf), if_pos he]

/-- Witness instances for C10_latency_asymmetry: a -5 power_off failure with
    elapsed time 7 updates the statistic, a -EBUSY veto does not, and a -5
    power_on failure returns immediately. -/
theorem C10_latency_asymmetry_witness :
    genpd_power_off { { baseEnv with power_off_cb := fun _ => some (-5) } with
        elapsed_off := fun _ => 7 } (uniformState (initDom false) (fun _ => initDev)) 0 true
      = (-5, updDom (addEvent (uniformState (initDom false) (fun _ => initDev))
          (.powerOffCb 0)) 0 fun t =>
            { t with power_off_latency_ns := 7, max_off_time_changed := true })
    ∧ genpd_power_off { baseEnv with power_off_cb := fun _ => some (-EBUSY) }
        (uniformState (initDom false) (fun _ => initDev)) 0 true
      = (-EBUSY, addEvent (uniformState (initDom false) (fun _ => initDev)) (.powerOffCb 0))
    ∧ genpd_power_on { baseEnv with power_on_cb := fun _ => some (-5) }
        (uniformState (initDom false) (fun _ => initDev)) 0 true
      = (-5, addEvent (uniformState (initDom false) (fun _ => initDev)) (.powerOnCb 0)) :=
  ⟨(C10_latency_asymmetry { { baseEnv with power_off_cb := fun _ => some (-5) } with
      elapsed_off := fun _ => 7 } (uniformState (initDom false) (fun _ => initDev)) 0
      (-5)).1 rfl (by decide) (by decide),
   (C10_latency_asymmetry { baseEnv with power_off_cb := fun _ => some (-EBUSY) }
      (uniformState (initDom false) (fun _ => initDev)) 0 0).2.1 rfl,
   (C10_latency_asymmetry { baseEnv with power_on_cb := fun _ => some (-5) }
      (uniformState (initDom false) (fun _ => initDev)) 0 (-5)).2.2 rfl (by decide)⟩

/-- C6: while prepared_count > 0, add_device and remove_device refuse with
    -EAGAIN leaving the domain records, the device's pm_domain pointer and
    its binding untouched, and remove_device re-registers the QoS observer
    it had detached before taking the lock. -/
theorem C6_topology_edit_refused (env : Env) (s : State) (d dv : Nat)
    (td : Option (Int × Int)) (hprep : 0 < (s.doms d).prepared_count) :
    ((s.devs dv).domain_data_set = false →
      (pm_genpd_add_device env s d dv td).1 = -EAGAIN
      ∧ (pm_genpd_add_device env s d dv td).2.doms = s.doms
      ∧ ((pm_genpd_add_device env s d dv td).2.devs dv).pm_domain = (s.devs dv).pm_domain
      ∧ ((pm_genpd_add_device env s d dv td).2.devs dv).domain_data_set = false
      ∧ (pm_genpd_add_device env s d dv td).2.trace = s.trace)
    ∧ ((s.devs dv).pm_domain = some d →
      (pm_genpd_remove_device env s d dv).1 = -EAGAIN
      ∧ (pm_genpd_remove_device env s d dv).2.doms = s.doms
      ∧ ((pm_genpd_remove_device env s d dv).2.devs dv).pm_domain = (s.devs dv).pm_domain
      ∧ ((pm_genpd_remove_device env s d dv).2.devs dv).qos_nb_registered = true
      ∧ (pm_genpd_remove_device env s d dv).2.trace
        = s.trace ++ [.qosRemoveNotifier dv, .qosAddNotifier dv]) := by
  constructor
  · intro hdd
    have hstep : pm_genpd_add_device env s d dv td
        = (-EAGAIN,
          updDev (updDev s dv fun t =>
            { t with domain_data_set := true,
                     constraint_changed := true,
                     suspend_latency_ns :=
                       match td with | some p => p.1 | none => t.suspend_latency_ns,
                     resume_latency_ns :=
                       match td with | some p => p.2 | none => t.resume_latency_ns })
            dv fun t => { t with domain_data_set := false }) := by
      unfold pm_genpd_add_device
      rw [if_neg (show ¬ (s.devs dv).domain_data_set = true by
        rw [hdd]; exact fun h => Bool.noConfusion h)]
      dsimp only
      split
      · rfl
      · next h => exact absurd hprep h
    rw [hstep]
    refine ⟨rfl, rfl, ?_, ?_, rfl⟩
    · simp [updDev]
    · simp [updDev]
  · intro hdom
    have hstep : pm_genpd_remove_device env s d dv
        = (-EAGAIN,
          addEvent (updDev (addEvent (updDev s dv fun t =>
            { t with qos_nb_registered := false }) (.qosRemoveNotifier dv)) dv
            fun t => { t with qos_nb_registered := true }) (.qosAddNotifier dv)) := by
      unfold pm_genpd_remove_device
      rw [if_neg (not_not_intro hdom)]
      dsimp only
      split
      · rfl
      · next h => exact absurd hprep h
    rw [hstep]
    refine ⟨rfl, rfl, ?_, ?_, ?_⟩
    · simp [updDev, addEvent]
    · simp [updDev, addEvent]
    · show ((s.trace ++ [Event.qosRemoveNotifier dv]) ++ [Event.qosAddNotifier dv])
        = s.trace ++ [Event.qosRemoveNotifier dv, Event.qosAddNotifier dv]
      simp

/-- Witness instance for C6_topology_edit_refused: a prepared domain (count
    1) refuses both the attach of a fresh device and the removal of an
    attached one. -/
theorem C6_topology_edit_refused_witness :
    ((pm_genpd_add_device baseEnv
        (uniformState { initDom false with prepared_count := 1 } (fun _ => initDev))
        0 1 none).1 = -EAGAIN
      ∧ (pm_genpd_add_device baseEnv
          (uniformState { initDom false with prepared_count := 1 } (fun _ => initDev))
          0 1 none).2.doms
        = (uniformState { initDom false with prepared_count := 1 } (fun _ => initDev)).doms)
    ∧ ((pm_genpd_remove_device baseEnv
        (uniformState { initDom false with prepared_count := 1 }
          (fun _ => { initDev with pm_domain := some 0, domain_data_set := true, qos_nb_registered := true })) 0 1).1 = -EAGAIN
      ∧ ((pm_genpd_remove_device baseEnv
          (uniformState { initDom false with prepared_count := 1 }
            (fun _ => { initDev with pm_domain := some 0, domain_data_set := true, qos_nb_registered := true })) 0 1).2.devs 1).qos_nb_registered = true) := by
  have h1 := (C6_topology_edit_refused baseEnv
    (uniformState { initDom false with prepared_count := 1 } (fun _ => initDev))
    0 1 none (by decide)).1 (by decide)
  have h2 := (C6_topology_edit_refused baseEnv
    (uniformState { initDom false with prepared_count := 1 }
      (fun _ => { initDev with pm_domain := some 0, domain_data_set := true, qos_nb_registered := true })) 0 1 none (by decide)).2 (by decide)
  exact ⟨⟨h1.1, h1.2.1⟩, ⟨h2.1, h2.2.2.2.1⟩⟩

/-- C8: a second genpd_poweroff right after one that returned 0 is a no-op
    returning 0, and __genpd_poweron on an ACTIVE domain returns 0 with the
    state (counters, callbacks, trace) untouched. -/
theorem C8_idempotence (env : Env) (s : State) (d : Nat) (a1 a2 : Bool) (fuel : Nat) :
    ((genpd_poweroff env s d a1).1 = 0 →
      genpd_poweroff env (genpd_poweroff env s d a1).2 d a2
        = (0, (genpd_poweroff env s d a1).2))
    ∧ ((s.doms d).status = GpdStatus.active →
      genpd_poweron_locked env fuel s d = (0, s)) := by
  constructor
  · intro h0
    rcases genpd_poweroff_zero_cases env s d a1 h0 with ⟨heq, hcond⟩ | hoff
    · rw [heq]
      simp only [genpd_poweroff]
      rw [if_pos hcond]
    · set s1 := (genpd_poweroff env s d a1).2 with hs1
      simp only [genpd_poweroff]
      rw [if_pos (Or.inl hoff)]
  · intro hact
    unfold genpd_poweron_locked genpd_poweron_locked_aux
    rw [if_pos (Or.inl hact)]

/-- Witness instance for C8_idempotence: powering off an all-off domain and
    then again, and __genpd_poweron on an active domain. -/
theorem C8_idempotence_witness :
    genpd_poweroff baseEnv
        (genpd_poweroff baseEnv (uniformState (initDom true) (fun _ => initDev)) 0 false).2
        0 true
      = (0, (genpd_poweroff baseEnv (uniformState (initDom true) (fun _ => initDev))
          0 false).2)
    ∧ genpd_poweron_locked baseEnv 1 (uniformState (initDom false) (fun _ => initDev)) 0
      = (0, uniformState (initDom false) (fun _ => initDev)) :=
  ⟨(C8_idempotence baseEnv (uniformState (initDom true) (fun _ => initDev)) 0 false true
      1).1 (by decide),
   (C8_idempotence baseEnv (uniformState (initDom false) (fun _ => initDev)) 0 false true
      1).2 rfl⟩

theorem countActiveSlaves_eq_masterLinks (s : State) (D : Nat) :
    countActiveSlaves s D
      = ((masterLinks s D).filter fun l =>
          decide ((s.doms l.slave).status = GpdStatus.active)).length := by
  unfold countActiveSlaves countActive masterLinks
  rw [← List.countP_eq_length_filter, List.countP_filter]
  apply List.countP_congr
  intro l _
  by_cases h1 : l.master = D <;>
    by_cases h2 : (s.doms l.slave).status = GpdStatus.active <;>
      simp [statusMap, h1, h2]

/-- C1: after any sequence of add_subdomain, remove_subdomain, power-on and
    power-off operations starting from freshly initialised domains, every
    domain's sd_count equals the number of links in its master_links whose
    slave is ACTIVE. -/
theorem C1_sd_count_matches_active_slaves (env : Env) (is_off : Nat → Bool)
    (ops : List TopOp) (D : Nat) :
    ((ops.foldl (applyTopOp env) (initState is_off)).doms D).sd_count
      = (((masterLinks (ops.foldl (applyTopOp env) (initState is_off)) D).filter fun l =>
          decide (((ops.foldl (applyTopOp env) (initState is_off)).doms l.slave).status
            = GpdStatus.active)).length : Int) := by
  have h := foldl_applyTopOp_inv env ops (initState is_off) (initState_inv is_off)
  have hb := h.2 D
  unfold balance at hb
  rw [← countActiveSlaves_eq_masterLinks]
  omega

/-- C9: the subdomain counter of every domain stays non-negative over any
    sequence of modelled operations from freshly initialised domains; the
    decrement helper's zero guard makes even unbalanced decrements safe. -/
theorem C9_sd_count_nonneg (env : Env) (is_off : Nat → Bool) (ops : List Op) (D : Nat) :
    0 ≤ ((ops.foldl (applyOp env) (initState is_off)).doms D).sd_count := by
  have h := foldl_applyOp_inv env ops (initState is_off) (initState_inv is_off)
  have hb := h.2 D
  unfold balance at hb
  have hnn : (0 : Int)
      ≤ (countActiveSlaves (ops.foldl (applyOp env) (initState is_off)) D : Int) :=
    Int.natCast_nonneg _
  omega

/-- C4: on the first prepare of a sleep cycle (prepared_count 0→1) the
    suspended counter is reset and suspend_power_off latched from the current
    status; when latched true the call returns 0 without reaching the
    downstream generic prepare (trace unchanged) and the domain stays off,
    with any subsequent power-on attempt early-returning and leaving it off. -/
theorem C4_prepare_latch (env : Env) (s : State) (dv d : Nat)
    (hdom : (s.devs dv).pm_domain = some d)
    (hwake : env.wakeup_pending = false)
    (hcw : env.can_wakeup dv = false)
    (hprep : (s.doms d).prepared_count = 0)
    (hlk : (s.doms d).locked = false)
    (hgp : env.generic_prepare_ret dv = 0) :
    ((pm_genpd_prepare env s dv).2.doms d).prepared_count = 1
    ∧ ((pm_genpd_prepare env s dv).2.doms d).suspended_count = 0
    ∧ ((pm_genpd_prepare env s dv).2.doms d).suspend_power_off
      = decide ((s.doms d).status = GpdStatus.power_off)
    ∧ ((s.doms d).status = GpdStatus.power_off →
      (pm_genpd_prepare env s dv).1 = 0
      ∧ (pm_genpd_prepare env s dv).2.trace = s.trace
      ∧ ((pm_genpd_prepare env s dv).2.doms d).status = GpdStatus.power_off
      ∧ ∀ fuel,
          ((genpd_poweron env fuel (pm_genpd_prepare env s dv).2 d).2.doms d).status
            = GpdStatus.power_off) := by
  have hw' : ¬ env.wakeup_pending = true := by
    rw [hwake]; exact fun h => Bool.noConfusion h
  have hrn : resume_needed env d dv = false := by
    unfold resume_needed
    rw [if_pos hcw]
  by_cases hoff : (s.doms d).status = GpdStatus.power_off
  · have hsp : ((updDom s d fun t =>
        { t with prepared_count := t.prepared_count + 1,
                 suspended_count := 0,
                 suspend_power_off := decide (t.status = GpdStatus.power_off) }).doms
          d).suspend_power_off = true := by
      simp [updDom, hoff]
    have hstep : pm_genpd_prepare env s dv
        = (0, updDom s d fun t =>
          { t with prepared_count := t.prepared_count + 1,
                   suspended_count := 0,
                   suspend_power_off := decide (t.status = GpdStatus.power_off) }) := by
      unfold pm_genpd_prepare
      rw [hdom]
      dsimp only
      rw [if_neg hw', hrn,
        if_neg (show ¬ (false = true) from fun h => Bool.noConfusion h),
        if_pos hprep, if_pos hsp]
    rw [hstep]
    refine ⟨by simp [updDom, hprep], by simp [updDom], by simp [updDom], ?_⟩
    intro _
    refine ⟨rfl, rfl, by simp [updDom, hoff], ?_⟩
    intro fuel
    cases fuel with
    | zero =>
      simp only [genpd_poweron]
      simp [updDom, hoff]
    | succ f =>
      have hlk2 : ((updDom s d fun t =>
          { t with prepared_count := t.prepared_count + 1,
                   suspended_count := 0,
                   suspend_power_off := decide (t.status = GpdStatus.power_off) }).doms
            d).locked = false := by
        simp [updDom, hlk]
      set s2 := updDom s d fun t =>
        { t with prepared_count := t.prepared_count + 1,
                 suspended_count := 0,
                 suspend_power_off := decide (t.status = GpdStatus.power_off) } with hs2
      have hguard : ((lockDom s2 d).doms d).status = GpdStatus.active
          ∨ (0 < ((lockDom s2 d).doms d).prepared_count
            ∧ ((lockDom s2 d).doms d).suspend_power_off = true) := by
        right
        constructor
        · rw [hs2]; simp [lockDom, updDom]
        · rw [hs2]; simp [lockDom, updDom, hoff]
      have hstep2 : genpd_poweron env (f + 1) s2 d
          = (0, unlockDom (lockDom s2 d) d) := by
        simp only [genpd_poweron]
        rw [if_neg (show ¬ ((s2.doms d).locked = true) by
          rw [hlk2]; exact fun h => Bool.noConfusion h)]
        unfold genpd_poweron_locked_aux
        rw [if_pos hguard]
      rw [hstep2]
      show ((unlockDom (lockDom s2 d) d).doms d).status = GpdStatus.power_off
      rw [unlockDom_status, lockDom_status, hs2]
      simp [updDom, hoff]
  · have hsp : ((updDom s d fun t =>
        { t with prepared_count := t.prepared_count + 1,
                 suspended_count := 0,
                 suspend_power_off := decide (t.status = GpdStatus.power_off) }).doms
          d).suspend_power_off = false := by
      simp [updDom, hoff]
    have hstep : pm_genpd_prepare env s dv
        = (0, addEvent (addEvent (updDom s d fun t =>
          { t with prepared_count := t.prepared_count + 1,
                   suspended_count := 0,
                   suspend_power_off := decide (t.status = GpdStatus.power_off) })
          (.rtResume dv)) (.genericPrepare dv)) := by
      unfold pm_genpd_prepare
      rw [hdom]
      dsimp only
      rw [if_neg hw', hrn,
        if_neg (show ¬ (false = true) from fun h => Bool.noConfusion h),
        if_pos hprep,
        if_neg (show ¬ (((updDom s d fun t =>
          { t with prepared_count := t.prepared_count + 1,
                   suspended_count := 0,
                   suspend_power_off := decide (t.status = GpdStatus.power_off) }).doms
            d).suspend_power_off = true) by
          rw [hsp]; exact fun h => Bool.noConfusion h),
        if_neg (show ¬ env.generic_prepare_ret dv ≠ 0 from not_not_intro hgp)]
    rw [hstep]
    refine ⟨by simp [addEvent, updDom, hprep], by simp [addEvent, updDom],
      by simp [addEvent, updDom], ?_⟩
    intro habs
    exact absurd habs hoff

/-- Witness instance for C4_prepare_latch: first prepare of a device on an
    off domain latches suspend_power_off and short-circuits. -/
theorem C4_prepare_latch_witness :
    ((pm_genpd_prepare baseEnv
        (uniformState (initDom true) (fun _ => { initDev with pm_domain := some 0 }))
        2).2.doms 0).prepared_count = 1
    ∧ ((pm_genpd_prepare baseEnv
        (uniformState (initDom true) (fun _ => { initDev with pm_domain := some 0 }))
        2).2.doms 0).suspend_power_off
      = decide (((uniformState (initDom true)
          (fun _ => { initDev with pm_domain := some 0 })).doms 0).status
          = GpdStatus.power_off)
    ∧ (pm_genpd_prepare baseEnv
        (uniformState (initDom true) (fun _ => { initDev with pm_domain := some 0 }))
        2).1 = 0
    ∧ ((genpd_poweron baseEnv 4 (pm_genpd_prepare baseEnv
        (uniformState (initDom true) (fun _ => { initDev with pm_domain := some 0 }))
        2).2 0).2.doms 0).status = GpdStatus.power_off := by
  have h := C4_prepare_latch baseEnv
    (uniformState (initDom true) (fun _ => { initDev with pm_domain := some 0 }))
    2 0 rfl rfl rfl rfl rfl rfl
  have h4 := h.2.2.2 rfl
  exact ⟨h.1, h.2.2.1, h4.1, h4.2.2.2 4⟩

/-- C2 counterexample: in the chain A(0) ← B(1) ← C(2) with A's power_on
    callback failing with -5, runtime_resume of the device on C returns -5
    and both counters are restored, but no deferred power-off work item is
    enqueued for B — the claim's conjunction is false: the rollback loops
    (list_for_each_entry_continue_reverse) only queue work for masters that
    were processed before the failing one, and in a linear chain each level
    has a single master, so every rollback walk is empty. -/
theorem C2_master_failure_counterexample :
    ¬ ((pm_genpd_runtime_resume (chainEnv (-5)) 3 chainState 0).1 = -5
      ∧ ((pm_genpd_runtime_resume (chainEnv (-5)) 3 chainState 0).2.doms 1).sd_count = 0
      ∧ ((pm_genpd_runtime_resume (chainEnv (-5)) 3 chainState 0).2.doms 0).sd_count = 0
      ∧ (1 : Nat) ∈ (pm_genpd_runtime_resume (chainEnv (-5)) 3 chainState 0).2.workQueue) := by
  intro h
  have hq := h.2.2.2
  have hempty : (pm_genpd_runtime_resume (chainEnv (-5)) 3 chainState 0).2.workQueue
      = [] := by decide
  rw [hempty] at hq
  exact List.not_mem_nil _ hq

/-- C2 (amended): in the chain A(0) ← B(1) ← C(2), all off, with device 0 on
    C, a failing A.power_on makes runtime_resume return that same error and
    restores B.sd_count and A.sd_count to their pre-call values, and no
    deferred power-off work is enqueued (in a linear chain the rollback
    walks over previously processed masters are empty). -/
theorem C2_master_failure_rollback (e : Int) (he : e ≠ 0) :
    (pm_genpd_runtime_resume (chainEnv e) 3 chainState 0).1 = e
    ∧ ((pm_genpd_runtime_resume (chainEnv e) 3 chainState 0).2.doms 1).sd_count = 0
    ∧ ((pm_genpd_runtime_resume (chainEnv e) 3 chainState 0).2.doms 0).sd_count = 0
    ∧ (pm_genpd_runtime_resume (chainEnv e) 3 chainState 0).2.workQueue = [] := by
  simp [pm_genpd_runtime_resume, genpd_poweron, genpd_poweron_locked,
    genpd_poweron_locked_aux, poweronMasters, decAndQueueMasters, genpd_power_on,
    genpd_sd_counter_inc, genpd_sd_counter_dec, genpd_queue_power_off_work, lockDom,
    unlockDom, updDom, addEvent, slaveLinks, chainEnv, chainState, baseEnv, initDom,
    initDev, he, List.filter]

/-- Witness instance for C2_master_failure_rollback at the concrete error
    -5. -/
theorem C2_master_failure_rollback_witness :
    (pm_genpd_runtime_resume (chainEnv (-5)) 3 chainState 0).1 = -5
    ∧ ((pm_genpd_runtime_resume (chainEnv (-5)) 3 chainState 0).2.doms 1).sd_count = 0
    ∧ ((pm_genpd_runtime_resume (chainEnv (-5)) 3 chainState 0).2.doms 0).sd_count = 0
    ∧ (pm_genpd_runtime_resume (chainEnv (-5)) 3 chainState 0).2.workQueue = [] :=
  C2_master_failure_rollback (-5) (by decide)
